import Mathlib

/-!
Contact routes (`src/backend/routes/contacts.js`) over a model of the SQLite store.

The store of `src/backend/database.js` is two tables, `contacts` and
`contact_methods`.  The route handlers of `contacts.js` are embedded as pure
functions that take the database state and return the HTTP answer together
with the next database state.  Every statement handed to `dbHelper` is
appended to `Db.log`, so that "no statement was issued" can be stated.

Conventions of the embedding:
* request bodies carry text fields as `Option String` (`none` is an absent
  field), the `bookmarked` flag as an arbitrary JSON scalar `JsVal`, and the
  `methods` field as a `MethodsField`: omitted, `null`, another value that is
  not iterable, or an array of entries;
* values generated by the environment (`uuidv4()`, `new Date().toISOString()`)
  are inputs of the handlers;
* integers are exact (`Int`); JavaScript doubles agree with them below `2^53`.
-/

namespace Contacts

/-! ## JavaScript values -/

/-- JSON values a request field may hold, as far as truthiness tells them apart. -/
inductive JsVal where
  | undefined
  | null
  | bool (b : Bool)
  | num (n : Int)
  | str (s : String)
  | object
  deriving DecidableEq, Repr

/-- JavaScript `ToBoolean`. -/
def JsVal.truthy : JsVal → Bool
  | .undefined => false
  | .null => false
  | .bool b => b
  | .num n => n != 0
  | .str s => s != ""
  | .object => true

/-- Truthiness of an optional text field: present and not the empty string. -/
def truthyStr : Option String → Bool
  | none => false
  | some s => s != ""

/-- The JavaScript expression `x || ''` on an optional text field. -/
def orEmpty : Option String → String
  | none => ""
  | some s => s

/-! ## The store (`database.js`) -/

/-- A row of table `contacts`. -/
structure ContactRow where
  id : String
  name : String
  notes : String
  bookmarked : Int
  created_at : String
  updated_at : String
  deriving DecidableEq, Repr

/-- A row of table `contact_methods`. -/
structure MethodRow where
  id : Nat
  contact_id : String
  type : String
  value : String
  deriving DecidableEq, Repr

/-- The database: both tables, the AUTOINCREMENT counter of `contact_methods`
and the list of SQL statements executed so far. -/
structure Db where
  contacts : List ContactRow
  contact_methods : List MethodRow
  seq : Nat
  log : List String
  deriving DecidableEq, Repr

/-- Record a statement passed to `dbHelper`. -/
def Db.exec (db : Db) (sql : String) : Db :=
  { contacts := db.contacts, contact_methods := db.contact_methods, seq := db.seq,
    log := db.log ++ [sql] }

def sqlBegin : String := "BEGIN TRANSACTION"
def sqlCommit : String := "COMMIT"
def sqlRollback : String := "ROLLBACK"
def sqlInsertContact : String :=
  "INSERT INTO contacts (id, name, notes, bookmarked, created_at, updated_at) \n                 VALUES (?, ?, ?, ?, ?, ?)"
def sqlInsertMethod : String :=
  "INSERT INTO contact_methods (contact_id, type, value) VALUES (?, ?, ?)"
def sqlUpdateContact : String :=
  "UPDATE contacts \n                 SET name = ?, notes = ?, bookmarked = ?, updated_at = ?\n                 WHERE id = ?"
def sqlDeleteMethods : String := "DELETE FROM contact_methods WHERE contact_id = ?"
def sqlDeleteContact : String := "DELETE FROM contacts WHERE id = ?"
def sqlSelectContact : String := "SELECT * FROM contacts WHERE id = ?"
def sqlSelectId : String := "SELECT id FROM contacts WHERE id = ?"
def sqlSelectName : String := "SELECT name FROM contacts WHERE id = ?"
def sqlSelectMethods : String :=
  "SELECT type, value FROM contact_methods WHERE contact_id = ? ORDER BY type"

/-- Is there a contact with this primary key? -/
def Db.hasContact (db : Db) (id : String) : Bool :=
  db.contacts.any (fun c => c.id == id)

/-- The statement `SELECT * FROM contacts WHERE id = ?`. -/
def Db.findContact (db : Db) (id : String) : Option ContactRow :=
  db.contacts.find? (fun c => c.id == id)

/-- The rows of `contact_methods` owned by a contact, in table order. -/
def Db.methodsOf (db : Db) (id : String) : List MethodRow :=
  db.contact_methods.filter (fun m => m.contact_id == id)

/-- Statement `INSERT INTO contacts ...`: the primary key must be new. -/
def Db.insertContact (db : Db) (row : ContactRow) : Except (String × Db) Db :=
  if db.hasContact row.id then
    .error ("SQLITE_CONSTRAINT: UNIQUE constraint failed: contacts.id", db.exec sqlInsertContact)
  else
    .ok { contacts := db.contacts ++ [row], contact_methods := db.contact_methods,
          seq := db.seq, log := db.log ++ [sqlInsertContact] }

/-- Statement `INSERT INTO contact_methods ...`: the foreign key must resolve
(`PRAGMA foreign_keys = ON`); the row id is the next AUTOINCREMENT value. -/
def Db.insertMethod (db : Db) (contactId type value : String) : Except (String × Db) Db :=
  if db.hasContact contactId then
    .ok { contacts := db.contacts,
          contact_methods := db.contact_methods ++ [⟨db.seq + 1, contactId, type, value⟩],
          seq := db.seq + 1, log := db.log ++ [sqlInsertMethod] }
  else
    .error ("SQLITE_CONSTRAINT: FOREIGN KEY constraint failed", db.exec sqlInsertMethod)

/-- Statement `UPDATE contacts SET name, notes, bookmarked, updated_at WHERE id`. -/
def Db.updateContact (db : Db) (id name notes : String) (bookmarked : Int) (now : String) : Db :=
  { contacts := db.contacts.map (fun c =>
      if c.id == id then
        { id := c.id, name := name, notes := notes, bookmarked := bookmarked,
          created_at := c.created_at, updated_at := now }
      else c),
    contact_methods := db.contact_methods, seq := db.seq, log := db.log ++ [sqlUpdateContact] }

/-- Statement `DELETE FROM contact_methods WHERE contact_id = ?`. -/
def Db.deleteMethods (db : Db) (id : String) : Db :=
  { contacts := db.contacts,
    contact_methods := db.contact_methods.filter (fun m => !(m.contact_id == id)),
    seq := db.seq, log := db.log ++ [sqlDeleteMethods] }

/-- Statement `DELETE FROM contacts WHERE id = ?`, with `ON DELETE CASCADE`
on `contact_methods.contact_id`. -/
def Db.deleteContact (db : Db) (id : String) : Db :=
  { contacts := db.contacts.filter (fun c => !(c.id == id)),
    contact_methods := db.contact_methods.filter (fun m => !(m.contact_id == id)),
    seq := db.seq, log := db.log ++ [sqlDeleteContact] }

/-- Statement `ROLLBACK`: the tables return to the state at `BEGIN`, the
statements stay in the log. -/
def Db.rollback (snapshot failed : Db) : Db :=
  { contacts := snapshot.contacts, contact_methods := snapshot.contact_methods,
    seq := snapshot.seq, log := failed.log ++ [sqlRollback] }

/-- Integrity constraints of the schema: `contacts.id` is a primary key and
every `contact_methods.contact_id` references a contact. -/
def Db.WellFormed (db : Db) : Prop :=
  (db.contacts.map (fun c => c.id)).Nodup ∧
    ∀ m ∈ db.contact_methods, db.hasContact m.contact_id = true

/-! ## Request and response shapes -/

/-- An entry of the `methods` array of a request body. -/
structure MethodInput where
  type : Option String
  value : Option String
  deriving DecidableEq, Repr

/-- The `methods` field of a request body: omitted (`undefined`), JSON
`null`, another value that is not iterable (a number, a boolean, a plain
object), or an array of entries. -/
inductive MethodsField where
  | absent
  | null
  | notIterable
  | array (entries : List MethodInput)
  deriving DecidableEq, Repr

/-- What `for (const method of methods)` visits in create and update, after
the destructuring default `methods = []`, which replaces only `undefined`;
`none` when the value is not iterable and the loop throws a `TypeError`. -/
def MethodsField.iterated : MethodsField → Option (List MethodInput)
  | .absent => some []
  | .null => none
  | .notIterable => none
  | .array entries => some entries

/-- The entries of the field when it is an array, no entry otherwise: what
the import loop visits behind its guard
`contact.methods && Array.isArray(contact.methods)`. -/
def MethodsField.entries : MethodsField → List MethodInput
  | .array entries => entries
  | _ => []

/-- Body of `POST /` and `PUT /:id`, and a row of `POST /import`. -/
structure ContactBody where
  name : Option String
  notes : Option String
  bookmarked : JsVal
  methods : MethodsField
  deriving DecidableEq, Repr

/-- The `{type, value}` object of a response. -/
structure MethodJson where
  type : String
  value : String
  deriving DecidableEq, Repr

/-- The `Contact` object of a response. -/
structure ContactJson where
  id : String
  name : String
  notes : String
  bookmarked : Bool
  created_at : String
  updated_at : String
  methods : List MethodJson
  deriving DecidableEq, Repr

/-- Answer of a handler whose payload is `α`: HTTP status and `data`. -/
structure Response (α : Type) where
  status : Nat
  data : Option α
  deriving DecidableEq, Repr

/-- `Boolean(row.bookmarked)` on the stored integer. -/
def boolOfInt (b : Int) : Bool := b != 0

/-- Lexicographic order on code points: the BINARY collation of SQLite. -/
def strLe : List Char → List Char → Bool
  | [], _ => true
  | _ :: _, [] => false
  | a :: as, b :: bs => a.toNat < b.toNat || (a.toNat == b.toNat && strLe as bs)

/-! ## `GET /:id` -/

/-- The statement `SELECT type, value FROM contact_methods WHERE contact_id = ?
ORDER BY type`. -/
def Db.selectMethods (db : Db) (id : String) : List MethodJson :=
  ((db.methodsOf id).map (fun m => (⟨m.type, m.value⟩ : MethodJson))).insertionSort
    (fun a b => strLe a.type.data b.type.data = true)

/-- Handler `router.get('/:id')`. -/
def getContact (id : String) (db : Db) : Response ContactJson × Db :=
  let db1 := db.exec sqlSelectContact
  match db.findContact id with
  | none => (⟨404, none⟩, db1)
  | some contact =>
    let db2 := db1.exec sqlSelectMethods
    (⟨200, some
      { id := contact.id
        name := contact.name
        notes := contact.notes
        bookmarked := boolOfInt contact.bookmarked
        created_at := contact.created_at
        updated_at := contact.updated_at
        methods := db.selectMethods id }⟩, db2)

/-! ## `POST /` -/

/-- The loop `for (const method of methods)` shared by create and update:
an entry is inserted when its type and value are both truthy. -/
def insertMethods (id : String) : List MethodInput → Db → Except (String × Db) Db
  | [], db => .ok db
  | m :: ms, db =>
    if truthyStr m.type && truthyStr m.value then
      match db.insertMethod id (orEmpty m.type) (orEmpty m.value) with
      | .ok db1 => insertMethods id ms db1
      | .error e => .error e
    else insertMethods id ms db

/-- The loop `for (const method of methods)` on the `methods` field of the
body of create and update: a value that is not iterable throws before any
statement is run. -/
def insertBodyMethods (id : String) (methods : MethodsField) (db : Db) :
    Except (String × Db) Db :=
  match methods.iterated with
  | some entries => insertMethods id entries db
  | none => .error ("methods is not iterable", db)

/-- Payload `{ id, name }` of create and update. -/
structure IdName where
  id : String
  name : String
  deriving DecidableEq, Repr

/-- Handler `router.post('/')`; `uuid` is the result of `uuidv4()` and `now`
that of `new Date().toISOString()`. -/
def createContact (uuid now : String) (body : ContactBody) (db : Db) :
    Response IdName × Db :=
  if !truthyStr body.name then (⟨400, none⟩, db)
  else
    let name := orEmpty body.name
    let db1 := db.exec sqlBegin
    let inserted :=
      match db1.insertContact
          ⟨uuid, name, orEmpty body.notes, if body.bookmarked.truthy then 1 else 0, now, now⟩ with
      | .ok db2 => insertBodyMethods uuid body.methods db2
      | .error e => .error e
    match inserted with
    | .ok db3 => (⟨201, some ⟨uuid, name⟩⟩, db3.exec sqlCommit)
    | .error e => (⟨500, none⟩, Db.rollback db e.2)

/-! ## `PUT /:id` -/

/-- Handler `router.put('/:id')`. -/
def updateContact (id now : String) (body : ContactBody) (db : Db) :
    Response IdName × Db :=
  if !truthyStr body.name then (⟨400, none⟩, db)
  else
    let name := orEmpty body.name
    let db0 := db.exec sqlSelectId
    if !db.hasContact id then (⟨404, none⟩, db0)
    else
      let db1 := db0.exec sqlBegin
      let db2 := db1.updateContact id name (orEmpty body.notes)
        (if body.bookmarked.truthy then 1 else 0) now
      let db3 := db2.deleteMethods id
      match insertBodyMethods id body.methods db3 with
      | .ok db4 => (⟨200, some ⟨id, name⟩⟩, db4.exec sqlCommit)
      | .error e => (⟨500, none⟩, Db.rollback db0 e.2)

/-! ## `DELETE /:id` -/

/-- Handler `router.delete('/:id')`. -/
def deleteContact (id : String) (db : Db) : Response Unit × Db :=
  let db0 := db.exec sqlSelectName
  if !db.hasContact id then (⟨404, none⟩, db0)
  else
    let db1 := db0.exec sqlBegin
    let db2 := db1.deleteMethods id
    let db3 := db2.deleteContact id
    (⟨200, none⟩, db3.exec sqlCommit)

/-- The seed rows of `insertInitialData`. -/
def seedDb : Db :=
  { contacts :=
      [ ⟨"test-001", "张三", "公司同事", 1, "2024-01-01 00:00:00", "2024-01-01 00:00:00"⟩,
        ⟨"test-002", "李四", "大学同学", 0, "2024-01-01 00:00:00", "2024-01-01 00:00:00"⟩,
        ⟨"test-003", "王五", "合作伙伴", 1, "2024-01-01 00:00:00", "2024-01-01 00:00:00"⟩ ]
    contact_methods :=
      [ ⟨1, "test-001", "手机号码", "13800138000"⟩,
        ⟨2, "test-001", "邮箱地址", "zhangsan@example.com"⟩,
        ⟨3, "test-002", "手机号码", "13900139000"⟩,
        ⟨4, "test-002", "联系地址", "北京市朝阳区"⟩,
        ⟨5, "test-003", "邮箱地址", "wangwu@example.com"⟩,
        ⟨6, "test-003", "社交账号", "wangwu_wechat"⟩ ]
    seq := 6
    log := [] }

/-! ## `GET /`: query parameters -/

/-- White space skipped by `parseInt` before the number. -/
def isJsWhitespace (c : Char) : Bool :=
  let n := c.toNat
  n == 9 || n == 10 || n == 11 || n == 12 || n == 13 || n == 32 || n == 160 ||
    n == 5760 || (8192 ≤ n && n ≤ 8202) || n == 8232 || n == 8233 || n == 8239 ||
    n == 8287 || n == 12288 || n == 65279

/-- Value of a digit in the given radix, if the character is one. -/
def digitVal (radix : Nat) (c : Char) : Option Nat :=
  let n := c.toNat
  let v : Option Nat :=
    if 48 ≤ n && n ≤ 57 then some (n - 48)
    else if 97 ≤ n && n ≤ 122 then some (n - 87)
    else if 65 ≤ n && n ≤ 90 then some (n - 55)
    else none
  v.filter (fun d => d < radix)

/-- Longest prefix of digits, read in the radix; `none` when there is no digit. -/
def parseDigits (radix : Nat) : List Char → Option Nat → Option Nat
  | [], acc => acc
  | c :: cs, acc =>
    match digitVal radix c with
    | some d => parseDigits radix cs (some (acc.getD 0 * radix + d))
    | none => acc

/-- Sign prefix of `parseInt`: whether the number is negated, and the rest. -/
def stripSign : List Char → Bool × List Char
  | c :: cs => if c = '-' then (true, cs) else if c = '+' then (false, cs) else (false, c :: cs)
  | [] => (false, [])

/-- Radix prefix of `parseInt` without a radix argument: `0x`/`0X` selects 16. -/
def stripRadix : List Char → Nat × List Char
  | a :: b :: cs =>
    if a = '0' && (b = 'x' || b = 'X') then (16, cs) else (10, a :: b :: cs)
  | cs => (10, cs)

/-- JavaScript `parseInt(x)` on a query parameter; `none` is `NaN` (also the
result for an absent parameter). -/
def parseInt (x : Option String) : Option Int :=
  match x with
  | none => none
  | some s =>
    let signed := stripSign (s.data.dropWhile isJsWhitespace)
    let rest := stripRadix signed.2
    (parseDigits rest.1 rest.2 none).map (fun n => if signed.1 then -(n : Int) else (n : Int))

/-- The expression `parseInt(x) || d`: `NaN` and `0` are falsy. -/
def parseIntOr (x : Option String) (d : Int) : Int :=
  match parseInt x with
  | none => d
  | some n => if n = 0 then d else n

/-- Query string of `GET /`. -/
structure ListQuery where
  page : Option String
  limit : Option String
  search : Option String
  bookmarked : Option String
  deriving DecidableEq, Repr

def ListQuery.pageNum (q : ListQuery) : Int := parseIntOr q.page 1
def ListQuery.limitNum (q : ListQuery) : Int := parseIntOr q.limit 100
def ListQuery.offset (q : ListQuery) : Int := (q.pageNum - 1) * q.limitNum
def ListQuery.searchText (q : ListQuery) : String := orEmpty q.search

/-! ## `GET /`: the statements -/

/-- A value bound to a `?` placeholder. -/
inductive SqlParam where
  | text (s : String)
  | int (n : Int)
  deriving DecidableEq, Repr

/-- The two conditions the handler pushes onto `whereClauses`. -/
inductive Clause where
  | search
  | bookmarked
  deriving DecidableEq, Repr

/-- SQL text of a condition. -/
def Clause.sql : Clause → String
  | .search =>
    "\n                (c.name LIKE ? OR c.notes LIKE ? OR \n                 EXISTS (SELECT 1 FROM contact_methods m2 \n                         WHERE m2.contact_id = c.id AND m2.value LIKE ?))\n            "
  | .bookmarked => "c.bookmarked = 1"

/-- Number of `?` placeholders in a condition. -/
def Clause.arity : Clause → Nat
  | .search => 3
  | .bookmarked => 0

def sqlListBase : String :=
  "\n            SELECT c.*, \n                   GROUP_CONCAT(m.type || ':' || m.value, ';;') as methods_string\n            FROM contacts c\n            LEFT JOIN contact_methods m ON c.id = m.contact_id\n        "

/-- The array `whereClauses` after both `if`s. -/
def ListQuery.whereClauses (q : ListQuery) : List Clause :=
  (if q.searchText != "" then [Clause.search] else []) ++
    (if q.bookmarked == some "true" then [Clause.bookmarked] else [])

/-- The pattern `%search%`. -/
def ListQuery.searchTerm (q : ListQuery) : String := "%" ++ q.searchText ++ "%"

/-- The array `params` before the LIMIT clause is considered. -/
def ListQuery.searchParams (q : ListQuery) : List SqlParam :=
  if q.searchText != "" then
    [.text q.searchTerm, .text q.searchTerm, .text q.searchTerm]
  else []

/-- The array `params` passed with the list statement. -/
def ListQuery.params (q : ListQuery) : List SqlParam :=
  q.searchParams ++ (if q.limitNum != -1 then [.int q.limitNum, .int q.offset] else [])

/-- The text ` WHERE a AND b`, empty without conditions. -/
def whereSql (cs : List Clause) : String :=
  if cs.length > 0 then " WHERE " ++ " AND ".intercalate (cs.map Clause.sql) else ""

/-- The list statement `sql`. -/
def ListQuery.sql (q : ListQuery) : String :=
  sqlListBase ++ whereSql q.whereClauses ++ " GROUP BY c.id ORDER BY c.updated_at DESC" ++
    (if q.limitNum != -1 then " LIMIT ? OFFSET ?" else "")

/-- The statement `countSql`. -/
def ListQuery.countSql (q : ListQuery) : String :=
  "SELECT COUNT(*) as total FROM contacts c" ++ whereSql q.whereClauses

/-- The array `countParams`: `params.slice(0, whereClauses.length * 3)` when
there is a condition, empty otherwise. -/
def ListQuery.countParams (q : ListQuery) : List SqlParam :=
  if q.whereClauses.length > 0 then q.params.take (q.whereClauses.length * 3) else []

/-! ## `GET /`: what SQLite computes -/

/-- Helper of `likeMatch`: does `f` accept some suffix of the text? -/
def anySuffix (f : List Char → Bool) : List Char → Bool
  | [] => f []
  | c :: cs => f (c :: cs) || anySuffix f cs

/-- The operator `text LIKE pattern` of SQLite: `%` stands for any run of
characters, `_` for one character, any other character for itself up to the
case of ASCII letters. -/
def likeMatch : List Char → List Char → Bool
  | [], s => s.isEmpty
  | p :: ps, s =>
    if p = '%' then anySuffix (likeMatch ps) s
    else
      match s with
      | [] => false
      | c :: cs => (p = '_' || p.toLower = c.toLower) && likeMatch ps cs

/-- A bound value as the text that `LIKE` compares. -/
def SqlParam.asText : SqlParam → String
  | .text s => s
  | .int n => toString n

/-- `column LIKE ?`; an unbound placeholder is NULL and matches nothing. -/
def likeParam (column : String) (p : Option SqlParam) : Bool :=
  match p with
  | none => false
  | some v => likeMatch v.asText.data column.data

/-- Truth of one condition on a contact, its placeholders bound in order to
the head of `ps`. -/
def Clause.holds (db : Db) (c : ContactRow) (ps : List SqlParam) : Clause → Bool
  | .search =>
    likeParam c.name ps[0]? || likeParam c.notes ps[1]? ||
      (db.methodsOf c.id).any (fun m => likeParam m.value ps[2]?)
  | .bookmarked => c.bookmarked == 1

/-- Truth of the conjunction of the conditions, placeholders bound left to right. -/
def whereHolds (db : Db) (c : ContactRow) : List Clause → List SqlParam → Bool
  | [], _ => true
  | cl :: cls, ps => cl.holds db c ps && whereHolds db c cls (ps.drop cl.arity)

/-- Number of placeholders of the conditions. -/
def placeholders (cs : List Clause) : Nat := (cs.map Clause.arity).sum

/-- Concatenation of the items with the separator between neighbours. -/
def joinWith (sep : List Char) : List (List Char) → List Char
  | [] => []
  | [x] => x
  | x :: y :: rest => x ++ sep ++ joinWith sep (y :: rest)

/-- The aggregate `GROUP_CONCAT(m.type || ':' || m.value, ';;')` over the
methods joined to a contact: NULL for a contact without methods. -/
def groupConcat (ms : List MethodRow) : Option String :=
  if ms.isEmpty then none
  else some (String.mk (joinWith [';', ';'] (ms.map (fun m => m.type.data ++ ':' :: m.value.data))))

/-- A row of the list statement: `c.*` and `methods_string`. -/
structure ListRow where
  contact : ContactRow
  methods_string : Option String
  deriving DecidableEq, Repr

/-- The clause `LIMIT ? OFFSET ?`: a negative limit is no limit, a negative
offset is no offset. -/
def applyLimit {α : Type} (limit offset : Int) (rows : List α) : List α :=
  let rest := rows.drop offset.toNat
  if limit < 0 then rest else rest.take limit.toNat

/-- The integer a bound value gives to LIMIT or OFFSET. -/
def SqlParam.asInt : SqlParam → Int
  | .int n => n
  | .text _ => 0

def rangeError : String := "SQLITE_RANGE: column index out of range"

/-- The call `dbHelper.all(sql, params)` for the list statement.  Binding more
values than the statement has placeholders is an error.  `contacts.id` is the
primary key, so `GROUP BY c.id` yields one row per contact that satisfies the
conditions; rows are ordered by `updated_at` descending. -/
def Db.selectList (db : Db) (cs : List Clause) (hasLimit : Bool) (ps : List SqlParam) :
    Except String (List ListRow) :=
  if placeholders cs + (if hasLimit then 2 else 0) < ps.length then .error rangeError
  else
    let matched := db.contacts.filter (fun c => whereHolds db c cs ps)
    let rows := matched.map (fun c => (⟨c, groupConcat (db.methodsOf c.id)⟩ : ListRow))
    let sorted := rows.insertionSort
      (fun a b => strLe b.contact.updated_at.data a.contact.updated_at.data = true)
    if hasLimit then
      let tail := ps.drop (placeholders cs)
      .ok (applyLimit ((tail[0]?.map SqlParam.asInt).getD (-1))
        ((tail[1]?.map SqlParam.asInt).getD 0) sorted)
    else .ok sorted

/-- The call `dbHelper.get(countSql, countParams)`. -/
def Db.selectCount (db : Db) (cs : List Clause) (ps : List SqlParam) : Except String Nat :=
  if placeholders cs < ps.length then .error rangeError
  else .ok (db.contacts.filter (fun c => whereHolds db c cs ps)).length

/-! ## `GET /`: decoding `methods_string` -/

/-- Scan of `String.prototype.split(sep)` for a non-empty separator: `skip`
counts the characters of a separator still to pass over, `cur` holds the
current piece reversed. -/
def splitAux (sep : List Char) : Nat → List Char → List Char → List (List Char)
  | _, [], cur => [cur.reverse]
  | skip + 1, _ :: cs, cur => splitAux sep skip cs cur
  | 0, c :: cs, cur =>
    if sep.isPrefixOf (c :: cs) then cur.reverse :: splitAux sep (sep.length - 1) cs []
    else splitAux sep 0 cs (c :: cur)

/-- JavaScript `s.split(sep)` for a non-empty separator. -/
def jsSplit (sep s : List Char) : List (List Char) := splitAux sep 0 s []

/-- The body of `methodPairs.forEach`: `[type, value] = pair.split(':')`, kept
when both are truthy. -/
def decodePair (pair : List Char) : Option MethodJson :=
  let parts := jsSplit [':'] pair
  match parts[0]?, parts[1]? with
  | some type, some value =>
    if !type.isEmpty && !value.isEmpty then some ⟨String.mk type, String.mk value⟩ else none
  | _, _ => none

/-- The block `if (row.methods_string) ...` of `rows.map`. -/
def decodeMethods (methods_string : Option String) : List MethodJson :=
  match methods_string with
  | none => []
  | some s => if s == "" then [] else (jsSplit [';', ';'] s.data).filterMap decodePair

/-- The callback of `rows.map`. -/
def rowToContact (row : ListRow) : ContactJson :=
  { id := row.contact.id
    name := row.contact.name
    notes := row.contact.notes
    bookmarked := boolOfInt row.contact.bookmarked
    created_at := row.contact.created_at
    updated_at := row.contact.updated_at
    methods := decodeMethods row.methods_string }

/-- The `pagination` object. -/
structure Pagination where
  page : Int
  limit : Int
  total : Int
  pages : Int
  deriving DecidableEq, Repr

/-- Payload of `GET /`. -/
structure ListData where
  data : List ContactJson
  pagination : Pagination
  deriving DecidableEq, Repr

/-- The expression `Math.ceil(total / limit)`. -/
def pages (total limit : Int) : Int := Int.ceil ((total : ℚ) / (limit : ℚ))

/-- Handler `router.get('/')`. -/
def listContacts (q : ListQuery) (db : Db) : Response ListData × Db :=
  let db1 := db.exec q.sql
  match db.selectList q.whereClauses (q.limitNum != -1) q.params with
  | .error _ => (⟨500, none⟩, db1)
  | .ok rows =>
    let contacts := rows.map rowToContact
    let db2 := db1.exec q.countSql
    match db.selectCount q.whereClauses q.countParams with
    | .error _ => (⟨500, none⟩, db2)
    | .ok total =>
      (⟨200, some
        { data := contacts
          pagination :=
            { page := q.pageNum
              limit := q.limitNum
              total := total
              pages := pages total q.limitNum } }⟩, db2)

/-! ## `POST /import` -/

/-- Loop state of the structured import: the database inside the
transaction, both counters and the array `errors`. -/
structure ImportState where
  db : Db
  successCount : Nat
  failCount : Nat
  errors : List String
  deriving DecidableEq, Repr

/-- The message pushed for a row without name; `i` is the 0-based loop index. -/
def nameMissing (i : Nat) : String := "第 " ++ toString (i + 1) ++ " 行: 姓名不能为空"

/-- The message pushed when the inserts of a row throw. -/
def rowFailed (i : Nat) (name message : String) : String :=
  "第 " ++ toString (i + 1) ++ " 行 \"" ++ name ++ "\": " ++ message

/-- One iteration of the loop of `POST /import`; `uuid` and `now` are the
values `uuidv4()` and `new Date().toISOString()` give in this iteration.  A
statement that fails leaves the transaction open with its earlier writes. -/
def importRow (uuid now : String) (i : Nat) (contact : ContactBody) (st : ImportState) :
    ImportState :=
  if !truthyStr contact.name then
    { db := st.db, successCount := st.successCount, failCount := st.failCount + 1,
      errors := st.errors ++ [nameMissing i] }
  else
    let inserted :=
      match st.db.insertContact
          ⟨uuid, orEmpty contact.name, orEmpty contact.notes,
            if contact.bookmarked.truthy then 1 else 0, now, now⟩ with
      | .ok db2 => insertMethods uuid (contact.methods.entries) db2
      | .error e => .error e
    match inserted with
    | .ok db3 =>
      { db := db3, successCount := st.successCount + 1, failCount := st.failCount,
        errors := st.errors }
    | .error e =>
      { db := e.2, successCount := st.successCount, failCount := st.failCount + 1,
        errors := st.errors ++ [rowFailed i (orEmpty contact.name) e.1] }

/-- The loop `for (let i = 0; i < contactsToImport.length; i++)`, from index
`i` on; `uuid k` and `now k` are the values generated in iteration `k`. -/
def importLoop (uuid now : Nat → String) : Nat → List ContactBody → ImportState → ImportState
  | _, [], st => st
  | i, c :: cs, st => importLoop uuid now (i + 1) cs (importRow (uuid i) (now i) i c st)

/-- Payload of `POST /import`. -/
structure ImportData where
  total : Nat
  success : Nat
  failed : Nat
  errors : List String
  deriving DecidableEq, Repr

/-- Handler `router.post('/import')`; `contacts` is `none` when the body
field is not an array. -/
def importContacts (uuid now : Nat → String) (contacts : Option (List ContactBody)) (db : Db) :
    Response ImportData × Db :=
  match contacts with
  | none => (⟨400, none⟩, db)
  | some rows =>
    if rows.length == 0 then (⟨400, none⟩, db)
    else
      let st := importLoop uuid now 0 rows ⟨db.exec sqlBegin, 0, 0, []⟩
      (⟨200, some
        { total := rows.length
          success := st.successCount
          failed := st.failCount
          errors := if st.errors.length > 0 then st.errors.take 10 else [] }⟩,
        st.db.exec sqlCommit)

/-! ## `POST /import/excel`: the conversion of the sheet rows -/

/-- A cell value as `XLSX.utils.sheet_to_json` delivers it. -/
inductive Cell where
  | text (s : String)
  | number (n : Int)
  | bool (b : Bool)
  deriving DecidableEq, Repr

/-- JavaScript `ToBoolean` on a cell value. -/
def Cell.truthy : Cell → Bool
  | .text s => s != ""
  | .number n => n != 0
  | .bool b => b

/-- JavaScript `String(x)` on a cell value. -/
def Cell.toStr : Cell → String
  | .text s => s
  | .number n => toString n
  | .bool b => if b then "true" else "false"

/-- The character class `[;,，]`. -/
def isDelimiter (c : Char) : Bool := c = ';' || c = ',' || c = '，'

/-- Scan of `split(/[;,，]/)`: a piece ends at every character of the class;
`cur` holds the current piece reversed. -/
def regexSplit (isSep : Char → Bool) : List Char → List Char → List (List Char)
  | [], cur => [cur.reverse]
  | c :: cs, cur =>
    if isSep c then cur.reverse :: regexSplit isSep cs [] else regexSplit isSep cs (c :: cur)

/-- JavaScript `String.prototype.trim`. -/
def jsTrim (s : List Char) : List Char :=
  ((s.dropWhile isJsWhitespace).reverse.dropWhile isJsWhitespace).reverse

/-- The expression `String(row[type]).split(/[;,，]/).map(v => v.trim()).filter(v => v)`. -/
def cellValues (cell : Cell) : List String :=
  ((((regexSplit isDelimiter cell.toStr.data []).map jsTrim).filter
    (fun v => !v.isEmpty)).map String.mk)

/-- The array `methodTypes`. -/
def methodTypes : List String := ["手机号码", "邮箱地址", "联系地址", "社交账号"]

/-- A row object of `jsonData`: header names with their cells. -/
abbrev SheetRow := List (String × Cell)

/-- The callback of `methodTypes.forEach` for one type: the methods pushed. -/
def columnMethods (row : SheetRow) (type : String) : List MethodJson :=
  match row.lookup type with
  | none => []
  | some cell => if cell.truthy then (cellValues cell).map (fun v => ⟨type, v⟩) else []

/-- The expression `row[key] || ''`. -/
def cellOrEmpty (row : SheetRow) (key : String) : Cell :=
  match row.lookup key with
  | none => .text ""
  | some cell => if cell.truthy then cell else .text ""

/-- The contact object built from a sheet row. -/
structure SheetContact where
  name : Cell
  notes : Cell
  bookmarked : Bool
  methods : List MethodJson
  deriving DecidableEq, Repr

/-- The callback of `jsonData.map`; an error is the thrown message. -/
def convertRow (row : SheetRow) (index : Nat) : Except String SheetContact :=
  let name := cellOrEmpty row "姓名"
  if !name.truthy then .error ("第 " ++ toString (index + 2) ++ " 行: 姓名不能为空")
  else
    .ok
      { name := name
        notes := cellOrEmpty row "备注"
        bookmarked := row.lookup "是否收藏" == some (.text "是") ||
          row.lookup "是否收藏" == some (.bool true)
        methods := (methodTypes.map (columnMethods row)).flatten }

/-- The call `jsonData.map(...)` from index `index` on: the first row that
throws ends the conversion. -/
def convertRows : List SheetRow → Nat → Except String (List SheetContact)
  | [], _ => .ok []
  | row :: rows, index =>
    match convertRow row index with
    | .error e => .error e
    | .ok c =>
      match convertRows rows (index + 1) with
      | .error e => .error e
      | .ok cs => .ok (c :: cs)

/-! ## Vocabulary of the specification -/

/-- A stored method as the `{type, value}` pair of a response. -/
def MethodRow.toJson (m : MethodRow) : MethodJson := ⟨m.type, m.value⟩

/-- The submitted methods with every entry whose type or value is empty (or
absent) removed, as `{type, value}` pairs in the submitted order. -/
def validMethods (ms : List MethodInput) : List MethodJson :=
  ms.filterMap (fun m =>
    match m.type, m.value with
    | some t, some v => if t ≠ "" ∧ v ≠ "" then some ⟨t, v⟩ else none
    | _, _ => none)

/-- The stored `{type, value}` pairs of a contact, in table order. -/
def Db.pairsOf (db : Db) (id : String) : List MethodJson :=
  (db.methodsOf id).map MethodRow.toJson

/-- The row `POST /` writes into `contacts`. -/
def newRow (uuid now : String) (body : ContactBody) : ContactRow :=
  ⟨uuid, orEmpty body.name, orEmpty body.notes, if body.bookmarked.truthy then 1 else 0, now, now⟩

/-- The update of the scalar fields that `PUT /:id` applies to one row. -/
def updatedRow (id now : String) (body : ContactBody) (c : ContactRow) : ContactRow :=
  if c.id == id then
    { id := c.id, name := orEmpty body.name, notes := orEmpty body.notes,
      bookmarked := if body.bookmarked.truthy then 1 else 0,
      created_at := c.created_at, updated_at := now }
  else c

/-- The rows before LIMIT/OFFSET: matching contacts with their aggregate,
ordered by `updated_at` descending. -/
def Db.sortedRows (db : Db) (cs : List Clause) (ps : List SqlParam) : List ListRow :=
  ((db.contacts.filter (fun c => whereHolds db c cs ps)).map
    (fun c => (⟨c, groupConcat (db.methodsOf c.id)⟩ : ListRow))).insertionSort
    (fun a b => strLe b.contact.updated_at.data a.contact.updated_at.data = true)

/-- The filter of the list statement on one contact: the conditions built from
the query, with the bound values of the query. -/
def ListQuery.selects (q : ListQuery) (db : Db) (c : ContactRow) : Bool :=
  whereHolds db c q.whereClauses q.params

/-- The text `s` occurs in `t` as a substring, ignoring the case of letters
(`Char.toLower` folds the ASCII letters). -/
def OccursIgnoringCase (s t : List Char) : Prop :=
  ∃ pre mid post, t = pre ++ mid ++ post ∧ mid.map Char.toLower = s.map Char.toLower

/-- The search condition as the specification words it: the text occurs,
ignoring case, in the name, in the notes or in the value of a method. -/
def SearchOccurs (s : String) (db : Db) (c : ContactRow) : Prop :=
  OccursIgnoringCase s.data c.name.data ∨ OccursIgnoringCase s.data c.notes.data ∨
    ∃ m ∈ db.methodsOf c.id, OccursIgnoringCase s.data m.value.data

/-- The seed contact `张三`. -/
def seedZhang : ContactRow :=
  ⟨"test-001", "张三", "公司同事", 1, "2024-01-01 00:00:00", "2024-01-01 00:00:00"⟩

/-- The seed contact `王五`. -/
def seedWang : ContactRow :=
  ⟨"test-003", "王五", "合作伙伴", 1, "2024-01-01 00:00:00", "2024-01-01 00:00:00"⟩

/-- Does the text `a` occur in `b`? -/
def hasInfix (a b : List Char) : Bool := b.tails.any (fun t => a.isPrefixOf t)

/-- The rows with a non-empty name, as the `contacts` rows their import
writes; the row at list position `k` has loop index `i + k`. -/
def namedRows (uuid now : Nat → String) : Nat → List ContactBody → List ContactRow
  | _, [] => []
  | i, c :: cs =>
    if truthyStr c.name then newRow (uuid i) (now i) c :: namedRows uuid now (i + 1) cs
    else namedRows uuid now (i + 1) cs

/-- The messages of the rows without name, each with its 1-based row number,
in row order. -/
def namelessErrors : Nat → List ContactBody → List String
  | _, [] => []
  | i, c :: cs =>
    if truthyStr c.name then namelessErrors (i + 1) cs
    else nameMissing i :: namelessErrors (i + 1) cs

/-- The pieces of a text split at every `;`, `,` or `，`, each trimmed of
surrounding white space, the empty ones dropped, in their order. -/
def trimmedPieces (s : String) : List String :=
  (((s.data.splitOnP isDelimiter).map jsTrim).filter (fun v => v ≠ [])).map String.mk

/-- A store with one contact whose only method has a value with `:` in it. -/
def colonDb : Db :=
  { contacts := [⟨"c-1", "甲", "", 0, "2024-01-01 00:00:00", "2024-01-01 00:00:00"⟩]
    contact_methods := [⟨1, "c-1", "社交账号", "http://x.com"⟩]
    seq := 1
    log := [] }

/-- A store with one contact whose only method has a value with `;;` in it. -/
def semicolonDb : Db :=
  { contacts := [⟨"c-1", "甲", "", 0, "2024-01-01 00:00:00", "2024-01-01 00:00:00"⟩]
    contact_methods := [⟨1, "c-1", "联系地址", "a;;b"⟩]
    seq := 1
    log := [] }

/-! ## Lemmas on the store -/

theorem hasContact_iff (db : Db) (id : String) :
    db.hasContact id = true ↔ ∃ c ∈ db.contacts, c.id = id := by
  simp [Db.hasContact]

theorem findContact_isSome (db : Db) (id : String) :
    (db.findContact id).isSome = db.hasContact id := by
  simp only [Db.findContact, Db.hasContact]
  induction db.contacts with
  | nil => rfl
  | cons c cs ih =>
    by_cases h : (c.id == id) = true
    · simp [List.find?, h]
    · simp only [Bool.not_eq_true] at h
      simp [List.find?, h, ih]

theorem truthyStr_eq_some {x : Option String} (h : truthyStr x = true) :
    ∃ s, x = some s ∧ s ≠ "" := by
  cases x with
  | none => simp [truthyStr] at h
  | some s => exact ⟨s, rfl, by simpa [truthyStr] using h⟩

/-- What the insert loop does when the owner exists: it cannot fail, leaves
`contacts`, and appends one row per valid entry, in order. -/
theorem insertMethods_spec (id : String) (ms : List MethodInput) :
    ∀ db : Db, db.hasContact id = true →
      ∃ db2 rows, insertMethods id ms db = .ok db2 ∧ db2.contacts = db.contacts ∧
        db2.contact_methods = db.contact_methods ++ rows ∧
        (∀ r ∈ rows, r.contact_id = id) ∧ rows.map MethodRow.toJson = validMethods ms := by
  induction ms with
  | nil =>
    intro db _
    exact ⟨db, [], rfl, rfl, by simp, by simp, rfl⟩
  | cons m ms ih =>
    intro db h
    by_cases hv : (truthyStr m.type && truthyStr m.value) = true
    · obtain ⟨ht, hvv⟩ := Bool.and_eq_true_iff.mp hv
      obtain ⟨t, hte, htn⟩ := truthyStr_eq_some ht
      obtain ⟨v, hve, hvn⟩ := truthyStr_eq_some hvv
      have hstep : db.insertMethod id t v =
          .ok (Db.mk db.contacts (db.contact_methods ++ [⟨db.seq + 1, id, t, v⟩])
            (db.seq + 1) (db.log ++ [sqlInsertMethod])) := by
        simp [Db.insertMethod, h]
      have h1 : Db.hasContact (Db.mk db.contacts
          (db.contact_methods ++ [⟨db.seq + 1, id, t, v⟩])
          (db.seq + 1) (db.log ++ [sqlInsertMethod])) id = true := h
      obtain ⟨db2, rows, hrun, hc, hm, hown, hrows⟩ := ih _ h1
      refine ⟨db2, ⟨db.seq + 1, id, t, v⟩ :: rows, ?_, ?_, ?_, ?_, ?_⟩
      · have hv2 := hv
        rw [hte, hve] at hv2
        simp only [insertMethods, hte, hve, hv2, if_true, orEmpty, hstep, hrun]
      · exact hc
      · simpa using hm
      · intro r hr
        rcases List.mem_cons.mp hr with rfl | hr
        · rfl
        · exact hown r hr
      · simp [validMethods, List.filterMap_cons, hte, hve, htn, hvn, MethodRow.toJson] at hrows ⊢
        exact hrows
    · obtain ⟨db2, rows, hrun, hc, hm, hown, hrows⟩ := ih db h
      refine ⟨db2, rows, ?_, hc, hm, hown, ?_⟩
      · simp only [insertMethods, hv, hrun]
        simp
      · have hnone : (match m.type, m.value with
            | some t, some v => if t ≠ "" ∧ v ≠ "" then some (⟨t, v⟩ : MethodJson) else none
            | _, _ => none) = none := by
          cases ht : m.type with
          | none => rfl
          | some t =>
            cases hvv : m.value with
            | none => rfl
            | some v =>
              have : ¬ (t ≠ "" ∧ v ≠ "") := by
                intro hcon
                apply hv
                simp [truthyStr, ht, hvv, hcon.1, hcon.2]
              simp [this]
        simp only [validMethods, List.filterMap_cons, hnone]
        exact hrows

theorem methodsOf_append_owned (db : Db) (base rows : List MethodRow) (id : String)
    (hm : db.contact_methods = base ++ rows) (hown : ∀ r ∈ rows, r.contact_id = id) :
    db.methodsOf id = base.filter (fun m => m.contact_id == id) ++ rows := by
  simp only [Db.methodsOf, hm, List.filter_append]
  congr 1
  rw [List.filter_eq_self]
  intro r hr
  simp [hown r hr]

theorem methodsOf_append_other (db : Db) (base rows : List MethodRow) (id other : String)
    (hm : db.contact_methods = base ++ rows) (hown : ∀ r ∈ rows, r.contact_id = id)
    (hne : other ≠ id) :
    db.methodsOf other = base.filter (fun m => m.contact_id == other) := by
  simp only [Db.methodsOf, hm, List.filter_append]
  have : rows.filter (fun m => m.contact_id == other) = [] := by
    rw [List.filter_eq_nil_iff]
    intro r hr
    simp [hown r hr, Ne.symm hne]
  simp [this]

/-- Under the foreign-key constraint an id that is not a contact owns no method. -/
theorem methodsOf_absent (db : Db) (hwf : db.WellFormed) (id : String)
    (h : db.hasContact id = false) : db.methodsOf id = [] := by
  simp only [Db.methodsOf, List.filter_eq_nil_iff]
  intro m hm hid
  have := hwf.2 m hm
  simp only [beq_iff_eq] at hid
  rw [hid, h] at this
  exact Bool.noConfusion this

/-- The field is either iterated entry by entry or makes the loop throw. -/
theorem iterated_cases (f : MethodsField) :
    f.iterated = some f.entries ∨ f.iterated = none := by
  cases f
  · exact Or.inl rfl
  · exact Or.inr rfl
  · exact Or.inr rfl
  · exact Or.inl rfl

theorem iterated_of_absent_or_array (f : MethodsField)
    (h : f = .absent ∨ ∃ entries, f = .array entries) : f.iterated = some f.entries := by
  rcases h with h | ⟨entries, h⟩ <;> rw [h] <;> rfl

/-- A create request with a truthy name, a fresh id and an iterable `methods`
commits: the new row and one method row per valid entry are appended. -/
theorem createContact_ok (uuid now : String) (body : ContactBody) (db : Db)
    (hname : truthyStr body.name = true) (hfresh : db.hasContact uuid = false)
    (hit : body.methods.iterated = some body.methods.entries) :
    ∃ db2 rows, createContact uuid now body db = (⟨201, some ⟨uuid, orEmpty body.name⟩⟩, db2) ∧
      db2.contacts = db.contacts ++ [newRow uuid now body] ∧
      db2.contact_methods = db.contact_methods ++ rows ∧
      (∀ r ∈ rows, r.contact_id = uuid) ∧
      rows.map MethodRow.toJson = validMethods (body.methods.entries) := by
  have hb : (db.exec sqlBegin).hasContact uuid = false := hfresh
  have hins : (db.exec sqlBegin).insertContact (newRow uuid now body) =
      .ok (Db.mk (db.contacts ++ [newRow uuid now body]) db.contact_methods db.seq
        ((db.exec sqlBegin).log ++ [sqlInsertContact])) := by
    simp only [Db.insertContact]
    rw [show (newRow uuid now body).id = uuid from rfl, hb]
    rfl
  have hhas : Db.hasContact (Db.mk (db.contacts ++ [newRow uuid now body])
      db.contact_methods db.seq ((db.exec sqlBegin).log ++ [sqlInsertContact])) uuid = true := by
    simp [Db.hasContact, newRow]
  obtain ⟨db2, rows, hrun, hc, hm, hown, hrows⟩ :=
    insertMethods_spec uuid (body.methods.entries) _ hhas
  refine ⟨db2.exec sqlCommit, rows, ?_, hc, hm, hown, hrows⟩
  have hins2 := hins
  have hrun2 := hrun
  simp only [newRow] at hins2 hrun2
  simp only [createContact, hname, Bool.not_true, Bool.false_eq_true, if_false, hins2,
    insertBodyMethods, hit, hrun2]

/-- A create request with a name whose `methods` is not iterable answers 500
and leaves both tables as they were. -/
theorem createContact_notIterable (uuid now : String) (body : ContactBody) (db : Db)
    (hname : truthyStr body.name = true) (hit : body.methods.iterated = none) :
    (createContact uuid now body db).1 = ⟨500, none⟩ ∧
      (createContact uuid now body db).2.contacts = db.contacts ∧
      (createContact uuid now body db).2.contact_methods = db.contact_methods := by
  unfold createContact
  simp only [hname, Bool.not_true, Bool.false_eq_true, if_false, insertBodyMethods, hit]
  cases (db.exec sqlBegin).insertContact
      ⟨uuid, orEmpty body.name, orEmpty body.notes,
        if body.bookmarked.truthy then 1 else 0, now, now⟩ with
  | ok db2 => exact ⟨rfl, rfl, rfl⟩
  | error e => exact ⟨rfl, rfl, rfl⟩

/-- A create request that answers 201 had an iterable `methods`. -/
theorem createContact_iterated_of_ok (uuid now : String) (body : ContactBody) (db : Db)
    (hok : (createContact uuid now body db).1.status = 201) :
    body.methods.iterated = some body.methods.entries := by
  rcases iterated_cases body.methods with h | h
  · exact h
  · exfalso
    by_cases hname : truthyStr body.name = true
    · rw [(createContact_notIterable uuid now body db hname h).1] at hok
      exact absurd hok (by decide)
    · simp [createContact, hname] at hok

/-- A create request that answers 201 used an id that was not in `contacts`. -/
theorem createContact_fresh_of_ok (uuid now : String) (body : ContactBody) (db : Db)
    (hok : (createContact uuid now body db).1.status = 201) : db.hasContact uuid = false := by
  by_contra hcon
  simp only [Bool.not_eq_false] at hcon
  have hb : (db.exec sqlBegin).hasContact uuid = true := hcon
  by_cases hname : truthyStr body.name = true
  · simp [createContact, hname, Db.insertContact, hb] at hok
  · simp [createContact, hname] at hok

theorem hasContact_map_updatedRow (cs : List ContactRow) (id now : String) (body : ContactBody)
    (x : String) :
    (cs.map (updatedRow id now body)).any (fun c => c.id == x) = cs.any (fun c => c.id == x) := by
  induction cs with
  | nil => rfl
  | cons c cs ih =>
    have : (updatedRow id now body c).id = c.id := by
      unfold updatedRow
      split <;> rfl
    simp only [List.map_cons, List.any_cons, ih, this]

/-- An update of an existing contact with a truthy name whose `methods` is
not iterable answers 500 and leaves both tables as they were. -/
theorem updateContact_notIterable (id now : String) (body : ContactBody) (db : Db)
    (hname : truthyStr body.name = true) (hex : db.hasContact id = true)
    (hit : body.methods.iterated = none) :
    (updateContact id now body db).1 = ⟨500, none⟩ ∧
      (updateContact id now body db).2.contacts = db.contacts ∧
      (updateContact id now body db).2.contact_methods = db.contact_methods := by
  simp only [updateContact, hname, hex, Bool.not_true, Bool.false_eq_true, if_false,
    insertBodyMethods, hit]
  refine ⟨?_, ?_, ?_⟩ <;> trivial

/-- An update of an existing contact with a truthy name and an iterable
`methods` commits: the scalar fields of the row are replaced, its methods are
deleted and one method row per valid entry is appended. -/
theorem updateContact_ok (id now : String) (body : ContactBody) (db : Db)
    (hname : truthyStr body.name = true) (hex : db.hasContact id = true)
    (hit : body.methods.iterated = some body.methods.entries) :
    ∃ db2 rows, updateContact id now body db = (⟨200, some ⟨id, orEmpty body.name⟩⟩, db2) ∧
      db2.contacts = db.contacts.map (updatedRow id now body) ∧
      db2.contact_methods =
        db.contact_methods.filter (fun m => !(m.contact_id == id)) ++ rows ∧
      (∀ r ∈ rows, r.contact_id = id) ∧
      rows.map MethodRow.toJson = validMethods (body.methods.entries) := by
  have hhas : Db.hasContact ((((db.exec sqlSelectId).exec sqlBegin).updateContact id
      (orEmpty body.name) (orEmpty body.notes) (if body.bookmarked.truthy then 1 else 0) now).deleteMethods
      id) id = true := by
    have := hasContact_map_updatedRow db.contacts id now body id
    have hex2 : db.contacts.any (fun c => c.id == id) = true := hex
    rw [← this] at hex2
    exact hex2
  obtain ⟨db2, rows, hrun, hc, hm, hown, hrows⟩ :=
    insertMethods_spec id (body.methods.entries) _ hhas
  refine ⟨db2.exec sqlCommit, rows, ?_, ?_, ?_, hown, hrows⟩
  · simp only [updateContact, hname, hex, Bool.not_true, Bool.false_eq_true, if_false,
      insertBodyMethods, hit, hrun]
  · rw [show (db2.exec sqlCommit).contacts = db2.contacts from rfl, hc]
    rfl
  · rw [show (db2.exec sqlCommit).contact_methods = db2.contact_methods from rfl, hm]
    rfl

theorem findContact_append_new (cs : List ContactRow) (row : ContactRow)
    (h : cs.any (fun c => c.id == row.id) = false) :
    (cs ++ [row]).find? (fun c => c.id == row.id) = some row := by
  induction cs with
  | nil => simp [List.find?]
  | cons c cs ih =>
    simp only [List.any_cons, Bool.or_eq_false_iff] at h
    simp only [List.cons_append, List.find?, h.1]
    exact ih h.2

/-- C1: create followed by get-one is a round trip.  On a store that satisfies
the schema constraints, when `POST /` with a non-empty name answers 201 with
`id`, `GET /:id` answers 200 with the submitted name, the submitted notes (the
empty string when omitted), `bookmarked` equal to the truthiness of the
submitted flag, and methods that are a permutation of the valid submitted
entries. -/
theorem create_get_roundtrip (uuid now : String) (body : ContactBody) (db : Db)
    (hwf : db.WellFormed) (hname : truthyStr body.name = true)
    (hok : (createContact uuid now body db).1.status = 201) :
    (createContact uuid now body db).1.data = some ⟨uuid, orEmpty body.name⟩ ∧
    ∃ c, (getContact uuid (createContact uuid now body db).2).1 = ⟨200, some c⟩ ∧
      c.id = uuid ∧ some c.name = body.name ∧ c.notes = orEmpty body.notes ∧
      c.bookmarked = body.bookmarked.truthy ∧
      c.methods.Perm (validMethods (body.methods.entries)) := by
  have hfresh := createContact_fresh_of_ok uuid now body db hok
  have hit := createContact_iterated_of_ok uuid now body db hok
  obtain ⟨db2, rows, hrun, hc, hm, hown, hrows⟩ :=
    createContact_ok uuid now body db hname hfresh hit
  obtain ⟨n, hn, _⟩ := truthyStr_eq_some hname
  have hfind : db2.findContact uuid = some (newRow uuid now body) := by
    simp only [Db.findContact, hc]
    exact findContact_append_new db.contacts (newRow uuid now body) hfresh
  have hmeth : db2.methodsOf uuid = rows := by
    rw [methodsOf_append_owned db2 db.contact_methods rows uuid hm hown]
    have := methodsOf_absent db hwf uuid hfresh
    simp only [Db.methodsOf] at this
    rw [this, List.nil_append]
  rw [hrun]
  refine ⟨rfl, ⟨uuid, orEmpty body.name, orEmpty body.notes, body.bookmarked.truthy, now, now,
    db2.selectMethods uuid⟩, ?_, rfl, ?_, rfl, rfl, ?_⟩
  · simp only [getContact, hfind, newRow, boolOfInt]
    cases body.bookmarked.truthy <;> rfl
  · simp [hn, orEmpty]
  · show (db2.selectMethods uuid).Perm _
    unfold Db.selectMethods
    rw [hmeth]
    have hmap : rows.map (fun m => (⟨m.type, m.value⟩ : MethodJson)) =
        validMethods (body.methods.entries) := hrows
    rw [hmap]
    exact List.perm_insertionSort _ _

/-- Witness of C1 on the seed store. -/
theorem create_get_roundtrip_witness :
    ∃ c, (getContact "u-1" (createContact "u-1" "2024-05-01T00:00:00.000Z"
        ⟨some "赵六", none, .num 1, .array [⟨some "z", some "1"⟩, ⟨some "", some "x"⟩,
          ⟨some "a", some "2"⟩]⟩ seedDb).2).1 = ⟨200, some c⟩ ∧
      c.id = "u-1" ∧ some c.name = some "赵六" ∧ c.notes = "" ∧ c.bookmarked = true ∧
      c.methods.Perm [⟨"z", "1"⟩, ⟨"a", "2"⟩] :=
  (create_get_roundtrip "u-1" "2024-05-01T00:00:00.000Z"
    ⟨some "赵六", none, .num 1, .array [⟨some "z", some "1"⟩, ⟨some "", some "x"⟩,
      ⟨some "a", some "2"⟩]⟩ seedDb
    ⟨by decide, by decide⟩ (by decide) (by decide)).2

/-- C2: a create request whose name is empty or absent is answered with 400
and the database is returned as it was: both tables, the counter and the
statement log are unchanged, so no transaction was begun and no row written. -/
theorem create_empty_name_rejected (uuid now : String) (body : ContactBody) (db : Db)
    (hname : body.name = none ∨ body.name = some "") :
    (createContact uuid now body db).1 = ⟨400, none⟩ ∧
      (createContact uuid now body db).2 = db := by
  have h : truthyStr body.name = false := by
    rcases hname with h | h <;> rw [h] <;> rfl
  simp [createContact, h]

/-- Witness of C2: an empty name on the seed store. -/
theorem create_empty_name_rejected_witness :
    (createContact "u-1" "2024-05-01T00:00:00.000Z"
        ⟨some "", some "n", .bool true, .array [⟨some "a", some "1"⟩]⟩ seedDb).1 = ⟨400, none⟩ ∧
      (createContact "u-1" "2024-05-01T00:00:00.000Z"
        ⟨some "", some "n", .bool true, .array [⟨some "a", some "1"⟩]⟩ seedDb).2 = seedDb :=
  create_empty_name_rejected "u-1" "2024-05-01T00:00:00.000Z"
    ⟨some "", some "n", .bool true, .array [⟨some "a", some "1"⟩]⟩ seedDb (Or.inr rfl)

theorem deleteContact_ok (id : String) (db : Db) (hex : db.hasContact id = true) :
    deleteContact id db = (⟨200, none⟩,
      ((((db.exec sqlSelectName).exec sqlBegin).deleteMethods id).deleteContact id).exec
        sqlCommit) := by
  simp [deleteContact, hex]

theorem find?_filter_ne (cs : List ContactRow) (id other : String) (hne : other ≠ id) :
    (cs.filter (fun c => !(c.id == id))).find? (fun c => c.id == other) =
      cs.find? (fun c => c.id == other) := by
  induction cs with
  | nil => rfl
  | cons c cs ih =>
    by_cases h1 : c.id = id
    · have h2 : ¬ c.id = other := fun h => hne (h ▸ h1)
      rw [List.filter_cons_of_neg (by simp [h1]), List.find?_cons_of_neg _ (by simp [h2])]
      exact ih
    · rw [List.filter_cons_of_pos (by simp [h1])]
      by_cases h2 : c.id = other
      · rw [List.find?_cons_of_pos _ (by simp [h2]), List.find?_cons_of_pos _ (by simp [h2])]
      · rw [List.find?_cons_of_neg _ (by simp [h2]), List.find?_cons_of_neg _ (by simp [h2])]
        exact ih

/-- C3: deleting an existing contact answers 200; afterwards no row of
`contact_methods` carries its id, no row of `contacts` has its id, `GET /:id`
answers 404, and every other contact row and its method rows are unchanged. -/
theorem delete_removes_contact_and_methods (id : String) (db : Db)
    (hex : db.hasContact id = true) :
    (deleteContact id db).1.status = 200 ∧
      (∀ m ∈ (deleteContact id db).2.contact_methods, m.contact_id ≠ id) ∧
      (∀ c ∈ (deleteContact id db).2.contacts, c.id ≠ id) ∧
      (getContact id (deleteContact id db).2).1 = ⟨404, none⟩ ∧
      ∀ other, other ≠ id →
        (deleteContact id db).2.findContact other = db.findContact other ∧
        (deleteContact id db).2.methodsOf other = db.methodsOf other := by
  rw [deleteContact_ok id db hex]
  have hcs : (((((db.exec sqlSelectName).exec sqlBegin).deleteMethods id).deleteContact id).exec
      sqlCommit).contacts = db.contacts.filter (fun c => !(c.id == id)) := rfl
  have hms : (((((db.exec sqlSelectName).exec sqlBegin).deleteMethods id).deleteContact id).exec
      sqlCommit).contact_methods =
      (db.contact_methods.filter (fun m => !(m.contact_id == id))).filter
        (fun m => !(m.contact_id == id)) := rfl
  refine ⟨rfl, ?_, ?_, ?_, ?_⟩
  · intro m hm
    rw [hms] at hm
    simpa using (List.mem_filter.mp hm).2
  · intro c hc
    rw [hcs] at hc
    simpa using (List.mem_filter.mp hc).2
  · have hnone : Db.findContact (((((db.exec sqlSelectName).exec sqlBegin).deleteMethods
        id).deleteContact id).exec sqlCommit) id = none := by
      simp only [Db.findContact, hcs, List.find?_eq_none]
      intro c hc
      simpa using (List.mem_filter.mp hc).2
    simp only [getContact, hnone]
  · intro other hne
    constructor
    · simp only [Db.findContact, hcs]
      exact find?_filter_ne db.contacts id other hne
    · simp only [Db.methodsOf, hms, List.filter_filter]
      apply List.filter_congr
      intro m _
      by_cases h : m.contact_id = other
      · simp [h, hne]
      · simp [h]

/-- Witness of C3: deleting `test-002` from the seed store. -/
theorem delete_removes_contact_and_methods_witness :
    (deleteContact "test-002" seedDb).1.status = 200 ∧
      (∀ m ∈ (deleteContact "test-002" seedDb).2.contact_methods, m.contact_id ≠ "test-002") ∧
      (∀ c ∈ (deleteContact "test-002" seedDb).2.contacts, c.id ≠ "test-002") ∧
      (getContact "test-002" (deleteContact "test-002" seedDb).2).1 = ⟨404, none⟩ ∧
      ∀ other, other ≠ "test-002" →
        (deleteContact "test-002" seedDb).2.findContact other = seedDb.findContact other ∧
        (deleteContact "test-002" seedDb).2.methodsOf other = seedDb.methodsOf other :=
  delete_removes_contact_and_methods "test-002" seedDb (by decide)

/-- The stored pairs of a contact right after an update with an iterable
`methods` are the valid entries of the submitted list. -/
theorem pairsOf_after_update (id now : String) (body : ContactBody) (db : Db)
    (hname : truthyStr body.name = true) (hex : db.hasContact id = true)
    (hit : body.methods.iterated = some body.methods.entries) :
    (updateContact id now body db).1 = ⟨200, some ⟨id, orEmpty body.name⟩⟩ ∧
      (updateContact id now body db).2.hasContact id = true ∧
      (updateContact id now body db).2.pairsOf id = validMethods (body.methods.entries) := by
  obtain ⟨db2, rows, hrun, hc, hm, hown, hrows⟩ := updateContact_ok id now body db hname hex hit
  rw [hrun]
  refine ⟨rfl, ?_, ?_⟩
  · show db2.contacts.any (fun c => c.id == id) = true
    rw [hc, hasContact_map_updatedRow]
    exact hex
  · show (db2.methodsOf id).map MethodRow.toJson = _
    rw [methodsOf_append_owned db2 _ rows id hm hown, List.filter_filter]
    have : (db.contact_methods.filter
        (fun m => (m.contact_id == id) && !(m.contact_id == id))) = [] := by
      rw [List.filter_eq_nil_iff]
      intro m _
      simp
    rw [this, List.nil_append, hrows]

/-- C4 as stated fails: on the seed store `PUT /test-001` with the body
`{"name": "张三", "methods": null}` throws at the loop over `methods`, is
rolled back and answers 500; the contact keeps its two stored methods, which
are not the (zero) valid entries of the submitted value. -/
theorem update_null_methods_counterexample :
    (updateContact "test-001" "2024-05-01T00:00:00.000Z"
        ⟨some "张三", none, .undefined, .null⟩ seedDb).1 = ⟨500, none⟩ ∧
      (updateContact "test-001" "2024-05-01T00:00:00.000Z"
        ⟨some "张三", none, .undefined, .null⟩ seedDb).2.pairsOf "test-001" =
        [⟨"手机号码", "13800138000"⟩, ⟨"邮箱地址", "zhangsan@example.com"⟩] ∧
      (updateContact "test-001" "2024-05-01T00:00:00.000Z"
        ⟨some "张三", none, .undefined, .null⟩ seedDb).2.pairsOf "test-001" ≠
        validMethods (MethodsField.null).entries := by
  decide

/-- C4, amended: update replaces the method set wholesale.  For an existing
contact and a body with a non-empty name whose `methods` is omitted or is an
array, `PUT /:id` answers 200 and the stored pairs of the contact are exactly
the valid entries of the submitted list, whatever was stored before; when the
body omits `methods` the contact owns no method row. -/
theorem update_replaces_methods (id now : String) (body : ContactBody) (db : Db)
    (hname : truthyStr body.name = true) (hex : db.hasContact id = true)
    (hm : body.methods = .absent ∨ ∃ entries, body.methods = .array entries) :
    (updateContact id now body db).1.status = 200 ∧
      (updateContact id now body db).2.pairsOf id = validMethods (body.methods.entries) ∧
      (body.methods = .absent → (updateContact id now body db).2.methodsOf id = []) := by
  obtain ⟨hres, _, hpairs⟩ := pairsOf_after_update id now body db hname hex
    (iterated_of_absent_or_array body.methods hm)
  refine ⟨by rw [hres], hpairs, ?_⟩
  intro hnone
  rw [hnone] at hpairs
  have : ((updateContact id now body db).2.methodsOf id).map MethodRow.toJson = [] := hpairs
  exact List.map_eq_nil_iff.mp this

/-- Witness of C4: an update of `test-001` that omits `methods`. -/
theorem update_replaces_methods_witness :
    (updateContact "test-001" "2024-05-01T00:00:00.000Z"
        ⟨some "张三", none, .undefined, .absent⟩ seedDb).1.status = 200 ∧
      (updateContact "test-001" "2024-05-01T00:00:00.000Z"
        ⟨some "张三", none, .undefined, .absent⟩ seedDb).2.pairsOf "test-001" = [] ∧
      (MethodsField.absent = MethodsField.absent →
        (updateContact "test-001" "2024-05-01T00:00:00.000Z"
          ⟨some "张三", none, .undefined, .absent⟩ seedDb).2.methodsOf "test-001" = []) :=
  update_replaces_methods "test-001" "2024-05-01T00:00:00.000Z"
    ⟨some "张三", none, .undefined, .absent⟩ seedDb (by decide) (by decide) (Or.inl rfl)

/-- C5: update is idempotent on methods.  For an existing contact and a body
with a non-empty name, applying `PUT /:id` with that body twice in a row (at
any two times) leaves the same stored pairs, in the same order and hence as a
multiset, as applying it once.  When `methods` is omitted or an array both
requests answer 200; when it is `null` or not iterable both are rolled back
and the stored pairs stay what they were. -/
theorem update_idempotent_on_methods (id now now2 : String) (body : ContactBody) (db : Db)
    (hname : truthyStr body.name = true) (hex : db.hasContact id = true) :
    (body.methods.iterated = some body.methods.entries →
        (updateContact id now body db).1.status = 200) ∧
      (body.methods.iterated = some body.methods.entries →
        (updateContact id now2 body (updateContact id now body db).2).1.status = 200) ∧
      (updateContact id now2 body (updateContact id now body db).2).2.pairsOf id =
        (updateContact id now body db).2.pairsOf id := by
  rcases iterated_cases body.methods with hit | hit
  · obtain ⟨hres, hex2, hpairs⟩ := pairsOf_after_update id now body db hname hex hit
    obtain ⟨hres2, _, hpairs2⟩ :=
      pairsOf_after_update id now2 body (updateContact id now body db).2 hname hex2 hit
    exact ⟨fun _ => by rw [hres], fun _ => by rw [hres2], by rw [hpairs2, hpairs]⟩
  · obtain ⟨_, hc, _⟩ := updateContact_notIterable id now body db hname hex hit
    have hex2 : (updateContact id now body db).2.hasContact id = true := by
      show (updateContact id now body db).2.contacts.any (fun c => c.id == id) = true
      rw [hc]
      exact hex
    obtain ⟨_, _, hm2⟩ :=
      updateContact_notIterable id now2 body (updateContact id now body db).2 hname hex2 hit
    refine ⟨fun h => ?_, fun h => ?_, ?_⟩
    · rw [hit] at h
      cases h
    · rw [hit] at h
      cases h
    · show ((updateContact id now2 body (updateContact id now body db).2).2.methodsOf id).map
        MethodRow.toJson = ((updateContact id now body db).2.methodsOf id).map MethodRow.toJson
      unfold Db.methodsOf
      rw [hm2]

/-- Witness of C5: the same body sent twice to `test-003`. -/
theorem update_idempotent_on_methods_witness :
    (updateContact "test-003" "t2" ⟨some "王五", some "x", .bool false,
        .array [⟨some "邮箱地址", some "w@example.com"⟩, ⟨none, some "y"⟩]⟩
      (updateContact "test-003" "t1" ⟨some "王五", some "x", .bool false,
        .array [⟨some "邮箱地址", some "w@example.com"⟩, ⟨none, some "y"⟩]⟩ seedDb).2).2.pairsOf
        "test-003" =
      (updateContact "test-003" "t1" ⟨some "王五", some "x", .bool false,
        .array [⟨some "邮箱地址", some "w@example.com"⟩, ⟨none, some "y"⟩]⟩ seedDb).2.pairsOf
        "test-003" :=
  (update_idempotent_on_methods "test-003" "t1" "t2" ⟨some "王五", some "x", .bool false,
    .array [⟨some "邮箱地址", some "w@example.com"⟩, ⟨none, some "y"⟩]⟩ seedDb
    (by decide) (by decide)).2.2

/-! ## Lemmas on `split` -/

theorem splitAux_succ (sep : List Char) (k : Nat) (c : Char) (cs cur : List Char) :
    splitAux sep (k + 1) (c :: cs) cur = splitAux sep k cs cur := by
  rw [splitAux]

theorem splitAux_zero (sep : List Char) (c : Char) (cs cur : List Char) :
    splitAux sep 0 (c :: cs) cur =
      if sep.isPrefixOf (c :: cs) then cur.reverse :: splitAux sep (sep.length - 1) cs []
      else splitAux sep 0 cs (c :: cur) := by
  rw [splitAux]

theorem splitAux_skip (sep : List Char) (pre rest cur : List Char) :
    splitAux sep pre.length (pre ++ rest) cur = splitAux sep 0 rest cur := by
  induction pre with
  | nil => rfl
  | cons p pre ih =>
    rw [List.length_cons, List.cons_append, splitAux_succ]
    exact ih

theorem isPrefixOf_self_append (a b : List Char) : a.isPrefixOf (a ++ b) = true := by
  induction a with
  | nil => simp [List.isPrefixOf]
  | cons x a ih => simp [List.isPrefixOf, ih]

/-- A piece free of the first separator character runs up to the next separator. -/
theorem splitAux_segment (s0 : Char) (srest x rest : List Char) (h : s0 ∉ x) :
    ∀ cur, splitAux (s0 :: srest) 0 (x ++ (s0 :: srest) ++ rest) cur =
      (cur.reverse ++ x) :: splitAux (s0 :: srest) 0 rest [] := by
  induction x with
  | nil =>
    intro cur
    have hp : (s0 :: srest).isPrefixOf (s0 :: (srest ++ rest)) = true :=
      isPrefixOf_self_append (s0 :: srest) rest
    rw [List.nil_append, List.cons_append, splitAux_zero, if_pos hp, List.length_cons,
      Nat.add_sub_cancel, splitAux_skip, List.append_nil]
  | cons c x ih =>
    intro cur
    have hc : s0 ≠ c := fun e => h (e ▸ List.mem_cons_self _ _)
    have hx : s0 ∉ x := fun e => h (List.mem_cons_of_mem _ e)
    have hp : (s0 :: srest).isPrefixOf (c :: (x ++ (s0 :: srest) ++ rest)) = false := by
      simp [List.isPrefixOf, hc]
    have step : splitAux (s0 :: srest) 0 (c :: (x ++ (s0 :: srest) ++ rest)) cur =
        splitAux (s0 :: srest) 0 (x ++ (s0 :: srest) ++ rest) (c :: cur) := by
      rw [splitAux_zero, hp]
      rfl
    rw [show c :: x ++ (s0 :: srest) ++ rest = c :: (x ++ (s0 :: srest) ++ rest) from rfl, step,
      ih hx (c :: cur)]
    simp

/-- A text free of the first separator character is a single piece. -/
theorem splitAux_last (s0 : Char) (srest x : List Char) (h : s0 ∉ x) :
    ∀ cur, splitAux (s0 :: srest) 0 x cur = [cur.reverse ++ x] := by
  induction x with
  | nil =>
    intro cur
    simp [splitAux]
  | cons c x ih =>
    intro cur
    have hc : s0 ≠ c := fun e => h (e ▸ List.mem_cons_self _ _)
    have hx : s0 ∉ x := fun e => h (List.mem_cons_of_mem _ e)
    have hp : (s0 :: srest).isPrefixOf (c :: x) = false := by
      simp [List.isPrefixOf, hc]
    have step : splitAux (s0 :: srest) 0 (c :: x) cur = splitAux (s0 :: srest) 0 x (c :: cur) := by
      rw [splitAux_zero, hp]
      rfl
    rw [step, ih hx (c :: cur)]
    simp

/-- Splitting a join gives the pieces back when no piece holds the first
separator character. -/
theorem jsSplit_joinWith (s0 : Char) (srest : List Char) (x : List Char) (xs : List (List Char)) :
    (∀ y ∈ x :: xs, s0 ∉ y) →
      jsSplit (s0 :: srest) (joinWith (s0 :: srest) (x :: xs)) = x :: xs := by
  induction xs generalizing x with
  | nil =>
    intro h
    simp only [joinWith, jsSplit]
    rw [splitAux_last s0 srest x (h x (List.mem_cons_self _ _))]
    simp
  | cons y ys ih =>
    intro h
    have hx := h x (List.mem_cons_self _ _)
    have hys : ∀ z ∈ y :: ys, s0 ∉ z := fun z hz => h z (List.mem_cons_of_mem _ hz)
    simp only [joinWith, jsSplit]
    rw [splitAux_segment s0 srest x _ hx]
    have := ih y hys
    simp only [jsSplit] at this
    rw [this]
    simp

theorem decodePair_pair (t v : List Char) (ht : t ≠ []) (hv : v ≠ [])
    (hct : ':' ∉ t) (hcv : ':' ∉ v) :
    decodePair (t ++ ':' :: v) = some ⟨String.mk t, String.mk v⟩ := by
  have hsplit : jsSplit [':'] (t ++ ':' :: v) = [t, v] := by
    have h1 := splitAux_segment ':' [] t v hct []
    have h2 := splitAux_last ':' [] v hcv []
    simp only [List.reverse_nil, List.nil_append, List.append_assoc, List.singleton_append] at h1 h2
    simp only [jsSplit, h1, h2]
  have het : t.isEmpty = false := by cases t with
    | nil => exact absurd rfl ht
    | cons _ _ => rfl
  have hev : v.isEmpty = false := by cases v with
    | nil => exact absurd rfl hv
    | cons _ _ => rfl
  simp [decodePair, hsplit, het, hev]

theorem data_ne_nil {s : String} (h : s ≠ "") : s.data ≠ [] := by
  intro hd
  apply h
  cases s with
  | mk d =>
    simp only at hd
    rw [hd]

theorem joinWith_cons_ne_nil (sep x : List Char) (xs : List (List Char)) (hx : x ≠ []) :
    joinWith sep (x :: xs) ≠ [] := by
  cases xs with
  | nil => simpa [joinWith] using hx
  | cons y ys => simp [joinWith, hx]

/-- Decoding the aggregate of methods whose types and values are non-empty and
free of `:` and `;` gives the stored pairs back, in order. -/
theorem decodeMethods_groupConcat (ms : List MethodRow)
    (h : ∀ m ∈ ms, m.type ≠ "" ∧ m.value ≠ "" ∧ ':' ∉ m.type.data ∧ ';' ∉ m.type.data ∧
      ':' ∉ m.value.data ∧ ';' ∉ m.value.data) :
    decodeMethods (groupConcat ms) = ms.map MethodRow.toJson := by
  cases ms with
  | nil => rfl
  | cons m ms =>
    have hsemi : ∀ y ∈ (m :: ms).map (fun m => m.type.data ++ ':' :: m.value.data), ';' ∉ y := by
      intro y hy
      obtain ⟨r, hr, rfl⟩ := List.mem_map.mp hy
      obtain ⟨_, _, _, h4, _, h6⟩ := h r hr
      intro hmem
      rcases List.mem_append.mp hmem with h' | h'
      · exact h4 h'
      · rcases List.mem_cons.mp h' with h'' | h''
        · exact absurd h'' (by decide)
        · exact h6 h''
    have hsplit := jsSplit_joinWith ';' [';'] (m.type.data ++ ':' :: m.value.data)
      (ms.map (fun m => m.type.data ++ ':' :: m.value.data)) (by simpa using hsemi)
    have hne : joinWith [';', ';'] ((m :: ms).map (fun m => m.type.data ++ ':' :: m.value.data))
        ≠ [] := by
      rw [List.map_cons]
      exact joinWith_cons_ne_nil _ _ _ (by simp)
    have hstr : (String.mk (joinWith [';', ';']
        ((m :: ms).map (fun m => m.type.data ++ ':' :: m.value.data))) == "") = false := by
      rw [beq_eq_false_iff_ne]
      intro heq
      apply hne
      have := congrArg String.data heq
      simpa using this
    have hdec : ∀ l : List MethodRow, (∀ r ∈ l, r ∈ m :: ms) →
        (l.map (fun m => m.type.data ++ ':' :: m.value.data)).filterMap decodePair =
          l.map MethodRow.toJson := by
      intro l
      induction l with
      | nil => intro _; rfl
      | cons r l ih =>
        intro hl
        obtain ⟨h1, h2, h3, _, h5, _⟩ := h r (hl r (List.mem_cons_self _ _))
        have := decodePair_pair r.type.data r.value.data (data_ne_nil h1) (data_ne_nil h2) h3 h5
        rw [List.map_cons, List.filterMap_cons, this, List.map_cons,
          ih (fun x hx => hl x (List.mem_cons_of_mem _ hx))]
        rfl
    simp only [groupConcat, List.isEmpty_cons, Bool.false_eq_true, if_false, decodeMethods, hstr]
    rw [List.map_cons, hsplit]
    exact hdec (m :: ms) (fun _ hr => hr)

theorem mem_sortedRows (db : Db) (cs : List Clause) (ps : List SqlParam) (r : ListRow) :
    r ∈ db.sortedRows cs ps ↔
      ∃ c ∈ db.contacts, whereHolds db c cs ps = true ∧
        r = ⟨c, groupConcat (db.methodsOf c.id)⟩ := by
  unfold Db.sortedRows
  rw [(List.perm_insertionSort _ _).mem_iff, List.mem_map]
  constructor
  · rintro ⟨c, hc, rfl⟩
    exact ⟨c, (List.mem_filter.mp hc).1, (List.mem_filter.mp hc).2, rfl⟩
  · rintro ⟨c, hc, hw, rfl⟩
    exact ⟨c, List.mem_filter.mpr ⟨hc, hw⟩, rfl⟩

theorem selectList_noLimit (db : Db) (cs : List Clause) (ps : List SqlParam)
    (h : ¬ placeholders cs < ps.length) :
    db.selectList cs false ps = .ok (db.sortedRows cs ps) := by
  simp only [Db.selectList, Bool.false_eq_true, if_false, Nat.add_zero, h]
  rfl

theorem selectList_mem (db : Db) (cs : List Clause) (hl : Bool) (ps : List SqlParam)
    (rows : List ListRow) (hsel : db.selectList cs hl ps = .ok rows) :
    ∀ r ∈ rows, r ∈ db.sortedRows cs ps := by
  intro r hr
  cases hl with
  | false =>
    by_cases h : placeholders cs < ps.length
    · simp [Db.selectList, h] at hsel
    · rw [selectList_noLimit db cs ps h] at hsel
      cases hsel
      exact hr
  | true =>
    by_cases h : placeholders cs + 2 < ps.length
    · simp [Db.selectList, h] at hsel
    · simp only [Db.selectList, if_true, h, if_false] at hsel
      cases hsel
      unfold applyLimit at hr
      simp only at hr
      split at hr
      · exact List.mem_of_mem_drop hr
      · exact List.mem_of_mem_drop (List.mem_of_mem_take hr)

/-- Every contact of a successful list answer is the decoding of the row that
the statement builds for some stored contact. -/
theorem listContacts_data_mem (q : ListQuery) (db : Db) (d : ListData)
    (hd : (listContacts q db).1.data = some d) :
    ∀ cj ∈ d.data, ∃ c ∈ db.contacts,
      cj = rowToContact ⟨c, groupConcat (db.methodsOf c.id)⟩ := by
  intro cj hcj
  unfold listContacts at hd
  cases hsel : db.selectList q.whereClauses (q.limitNum != -1) q.params with
  | error e => simp [hsel] at hd
  | ok rows =>
    cases hcnt : db.selectCount q.whereClauses q.countParams with
    | error e => simp [hsel, hcnt] at hd
    | ok total =>
      simp only [hsel, hcnt, Option.some.injEq] at hd
      subst hd
      obtain ⟨row, hrow, rfl⟩ := List.mem_map.mp hcj
      obtain ⟨c, hc, _, rfl⟩ := (mem_sortedRows db _ _ row).mp
        (selectList_mem db _ _ _ rows hsel row hrow)
      exact ⟨c, hc, rfl⟩

/-- C6: the list endpoint decodes methods faithfully.  In every successful
answer of `GET /`, a returned contact whose stored methods all have a
non-empty type and value with neither `:` nor `;` in them carries exactly its
stored `{type, value}` pairs, in table order; a returned contact without
stored methods (aggregate NULL) carries the empty list. -/
theorem list_decode_faithful (q : ListQuery) (db : Db) (d : ListData)
    (hd : (listContacts q db).1.data = some d) :
    ∀ cj ∈ d.data,
      ((∀ m ∈ db.methodsOf cj.id, m.type ≠ "" ∧ m.value ≠ "" ∧ ':' ∉ m.type.data ∧
          ';' ∉ m.type.data ∧ ':' ∉ m.value.data ∧ ';' ∉ m.value.data) →
        cj.methods = db.pairsOf cj.id) ∧
      (db.methodsOf cj.id = [] → cj.methods = []) := by
  intro cj hcj
  obtain ⟨c, _, rfl⟩ := listContacts_data_mem q db d hd cj hcj
  have hclean : (∀ m ∈ db.methodsOf c.id, m.type ≠ "" ∧ m.value ≠ "" ∧ ':' ∉ m.type.data ∧
      ';' ∉ m.type.data ∧ ':' ∉ m.value.data ∧ ';' ∉ m.value.data) →
      decodeMethods (groupConcat (db.methodsOf c.id)) = db.pairsOf c.id :=
    fun h => decodeMethods_groupConcat _ h
  refine ⟨hclean, ?_⟩
  intro hnil
  have := hclean (by rw [show db.methodsOf (rowToContact ⟨c, groupConcat (db.methodsOf c.id)⟩).id
    = db.methodsOf c.id from rfl] at hnil; rw [hnil]; intro m hm; cases hm)
  show decodeMethods (groupConcat (db.methodsOf c.id)) = []
  rw [this, Db.pairsOf]
  rw [show db.methodsOf (rowToContact ⟨c, groupConcat (db.methodsOf c.id)⟩).id
    = db.methodsOf c.id from rfl] at hnil
  rw [hnil]
  rfl

/-! ## Lemmas on `LIKE` -/

theorem anySuffix_iff (f : List Char → Bool) (t : List Char) :
    anySuffix f t = true ↔ ∃ pre u, t = pre ++ u ∧ f u = true := by
  induction t with
  | nil =>
    simp only [anySuffix]
    constructor
    · intro h
      exact ⟨[], [], rfl, h⟩
    · rintro ⟨pre, u, hpu, hf⟩
      have hu : u = [] := (List.append_eq_nil.mp hpu.symm).2
      rw [← hu]
      exact hf
  | cons c t ih =>
    simp only [anySuffix, Bool.or_eq_true, ih]
    constructor
    · rintro (h | ⟨pre, u, hpu, hf⟩)
      · exact ⟨[], c :: t, rfl, h⟩
      · exact ⟨c :: pre, u, by rw [hpu]; rfl, hf⟩
    · rintro ⟨pre, u, hpu, hf⟩
      cases pre with
      | nil =>
        left
        rw [List.nil_append] at hpu
        rw [hpu]
        exact hf
      | cons p pre =>
        right
        rw [List.cons_append] at hpu
        exact ⟨pre, u, (List.cons.inj hpu).2, hf⟩

/-- A pattern of literal characters followed by `%` matches the texts that
start with those characters, up to ASCII case. -/
theorem likeMatch_literal_start (s : List Char) (hp : '%' ∉ s) (hu : '_' ∉ s) :
    ∀ u, likeMatch (s ++ ['%']) u = true ↔
      ∃ mid post, u = mid ++ post ∧ mid.map Char.toLower = s.map Char.toLower := by
  induction s with
  | nil =>
    intro u
    have : likeMatch ['%'] u = true := by
      simp only [likeMatch, if_true]
      rw [anySuffix_iff]
      exact ⟨u, [], by simp, rfl⟩
    simp only [List.nil_append, this, true_iff]
    exact ⟨[], u, rfl, rfl⟩
  | cons a s ih =>
    intro u
    have ha1 : a ≠ '%' := fun e => hp (e ▸ List.mem_cons_self _ _)
    have ha2 : a ≠ '_' := fun e => hu (e ▸ List.mem_cons_self _ _)
    have ih2 := ih (fun e => hp (List.mem_cons_of_mem _ e)) (fun e => hu (List.mem_cons_of_mem _ e))
    cases u with
    | nil =>
      simp only [List.cons_append, likeMatch, ha1, if_false, Bool.false_eq_true, false_iff]
      rintro ⟨mid, post, hmp, hmid⟩
      have hm : mid = [] := (List.append_eq_nil.mp hmp.symm).1
      rw [hm] at hmid
      simp at hmid
    | cons c u =>
      simp only [List.cons_append, likeMatch, ha1, if_false, ha2, decide_False, Bool.false_or,
        Bool.and_eq_true, decide_eq_true_eq, List.append_eq, ih2 u]
      constructor
      · rintro ⟨hac, mid, post, hmp, hmid⟩
        exact ⟨c :: mid, post, by rw [hmp]; rfl, by simp [hmid, hac]⟩
      · rintro ⟨mid, post, hmp, hmid⟩
        cases mid with
        | nil => simp at hmid
        | cons m mid =>
          rw [List.cons_append] at hmp
          obtain ⟨h1, h2⟩ := List.cons.inj hmp
          simp only [List.map_cons, List.cons.injEq] at hmid
          exact ⟨by rw [h1]; exact hmid.1.symm, mid, post, h2, hmid.2⟩

/-- The pattern `%s%` for a text `s` without wildcard characters matches the
texts that hold `s` as a substring up to ASCII case. -/
theorem likeMatch_contains (s t : List Char) (hp : '%' ∉ s) (hu : '_' ∉ s) :
    likeMatch ('%' :: (s ++ ['%'])) t = true ↔ OccursIgnoringCase s t := by
  have h0 : likeMatch ('%' :: (s ++ ['%'])) t = anySuffix (likeMatch (s ++ ['%'])) t := by
    simp only [likeMatch, if_true]
  rw [h0, anySuffix_iff]
  constructor
  · rintro ⟨pre, u, hpu, hm⟩
    obtain ⟨mid, post, hmp, hmid⟩ := (likeMatch_literal_start s hp hu u).mp hm
    exact ⟨pre, mid, post, by rw [hpu, hmp, List.append_assoc], hmid⟩
  · rintro ⟨pre, mid, post, hpu, hmid⟩
    exact ⟨pre, mid ++ post, by rw [hpu, List.append_assoc],
      (likeMatch_literal_start s hp hu _).mpr ⟨mid, post, rfl, hmid⟩⟩

theorem searchTerm_data (q : ListQuery) (s : String) (hs : q.search = some s) :
    q.searchTerm.data = '%' :: (s.data ++ ['%']) := by
  simp [ListQuery.searchTerm, ListQuery.searchText, hs, orEmpty]

/-- With a non-empty search text the filter is the search condition on the
pattern `%s%`, and the bookmarked condition when the flag is `true`. -/
theorem selects_eq (q : ListQuery) (s : String) (db : Db) (c : ContactRow)
    (hs : q.search = some s) (hne : s ≠ "") :
    q.selects db c =
      ((likeMatch q.searchTerm.data c.name.data || likeMatch q.searchTerm.data c.notes.data ||
        (db.methodsOf c.id).any (fun m => likeMatch q.searchTerm.data m.value.data)) &&
        (if q.bookmarked = some "true" then c.bookmarked == 1 else true)) := by
  have htext : (q.searchText != "") = true := by
    simp [ListQuery.searchText, hs, orEmpty, hne]
  by_cases hb : q.bookmarked = some "true"
  · simp [ListQuery.selects, ListQuery.whereClauses, ListQuery.params, ListQuery.searchParams,
      htext, hb, whereHolds, Clause.holds, likeParam, SqlParam.asText]
  · simp [ListQuery.selects, ListQuery.whereClauses, ListQuery.params, ListQuery.searchParams,
      htext, hb, whereHolds, Clause.holds, likeParam, SqlParam.asText]

/-- C7 as stated fails: on the seed store the search text `_` selects the
contact `张三`, although `_` occurs in none of its name, notes and method values. -/
theorem search_underscore_counterexample :
    ¬ ((⟨none, none, some "_", none⟩ : ListQuery).selects seedDb seedZhang = true ↔
        SearchOccurs "_" seedDb seedZhang) := by
  intro h
  have hsel : (⟨none, none, some "_", none⟩ : ListQuery).selects seedDb seedZhang = true := by
    decide
  have hocc := h.mp hsel
  have hno : ∀ t : List Char, (∀ x ∈ t, x.toLower ≠ '_') → ¬ OccursIgnoringCase "_".data t := by
    rintro t ht ⟨pre, mid, post, hpu, hmid⟩
    cases mid with
    | nil => simp at hmid
    | cons m mid =>
      simp only [List.map_cons, List.map_nil, List.cons.injEq] at hmid
      refine ht m ?_ hmid.1
      rw [hpu]
      simp
  rcases hocc with h1 | h1 | ⟨m, hm, h1⟩
  · exact hno _ (by decide) h1
  · exact hno _ (by decide) h1
  · have hall : ∀ m ∈ seedDb.methodsOf seedZhang.id, ∀ x ∈ m.value.data, x.toLower ≠ '_' := by
      decide
    exact hno _ (hall m hm) h1

/-- C7, amended: for a non-empty search text that holds neither `%` nor `_`,
the list filter selects a contact if and only if the text occurs, ignoring
the case of ASCII letters, as a substring of its name, of its notes or of the
value of one of its methods (and, when the bookmarked filter is on, the
contact is bookmarked). -/
theorem search_selects_iff_occurs (q : ListQuery) (s : String) (db : Db) (c : ContactRow)
    (hs : q.search = some s) (hne : s ≠ "") (hp : '%' ∉ s.data) (hu : '_' ∉ s.data) :
    q.selects db c = true ↔
      SearchOccurs s db c ∧ (q.bookmarked = some "true" → c.bookmarked = 1) := by
  rw [selects_eq q s db c hs hne, searchTerm_data q s hs]
  simp only [Bool.and_eq_true, Bool.or_eq_true, List.any_eq_true, likeMatch_contains _ _ hp hu,
    SearchOccurs]
  constructor
  · rintro ⟨h1, h2⟩
    refine ⟨?_, ?_⟩
    · rcases h1 with (h | h) | h
      · exact Or.inl h
      · exact Or.inr (Or.inl h)
      · exact Or.inr (Or.inr h)
    · intro hb
      simpa [hb] using h2
  · rintro ⟨h1, h2⟩
    refine ⟨?_, ?_⟩
    · rcases h1 with h | h | h
      · exact Or.inl (Or.inl h)
      · exact Or.inl (Or.inr h)
      · exact Or.inr h
    · by_cases hb : q.bookmarked = some "true"
      · simpa [hb] using h2 hb
      · simp [hb]

/-- Witness of C7: the search text `合作` on the seed contact `王五`, whose
notes are `合作伙伴`. -/
theorem search_selects_iff_occurs_witness :
    (⟨none, none, some "合作", none⟩ : ListQuery).selects seedDb seedWang = true ↔
      SearchOccurs "合作" seedDb seedWang ∧
        ((none : Option String) = some "true" → seedWang.bookmarked = 1) :=
  search_selects_iff_occurs ⟨none, none, some "合作", none⟩ "合作" seedDb seedWang rfl
    (by decide) (by decide) (by decide)

/-! ## The COUNT statement -/

/-- C8 fails on the code: for the request `GET /?bookmarked=true` (no search,
default limit 100) the list statement has the single condition
`c.bookmarked = 1` without placeholder, yet `countParams` is
`params.slice(0, 1 * 3)`, the LIMIT and OFFSET values `[100, 0]`; the COUNT
statement is bound to two values it has no placeholder for and the request is
answered with 500. -/
theorem count_params_bookmarked_only :
    (⟨none, none, none, some "true"⟩ : ListQuery).whereClauses = [Clause.bookmarked] ∧
      (⟨none, none, none, some "true"⟩ : ListQuery).countSql =
        "SELECT COUNT(*) as total FROM contacts c WHERE c.bookmarked = 1" ∧
      (⟨none, none, none, some "true"⟩ : ListQuery).searchParams = [] ∧
      (⟨none, none, none, some "true"⟩ : ListQuery).countParams = [.int 100, .int 0] ∧
      (listContacts ⟨none, none, none, some "true"⟩ seedDb).1 = ⟨500, none⟩ := by
  decide

/-- With search text and the bookmarked filter together the slice
`params.slice(0, 2 * 3)` takes the three search values and, behind them, the
LIMIT and OFFSET values. -/
theorem count_params_search_and_bookmarked :
    (⟨none, none, some "a", some "true"⟩ : ListQuery).countParams =
      [.text "%a%", .text "%a%", .text "%a%", .int 100, .int 0] := by
  decide

/-! ## The page count -/

/-- C9: for a total of at least 0 and a limit of at least 1 the value of
`Math.ceil(total / limit)` is the least integer `p` with `p * limit ≥ total`. -/
theorem pages_is_least_cover (total limit : Int) (ht : 0 ≤ total) (hl : 1 ≤ limit) :
    0 ≤ pages total limit ∧ total ≤ pages total limit * limit ∧
      ∀ p : Int, total ≤ p * limit → pages total limit ≤ p := by
  have hlq : (0 : ℚ) < (limit : ℚ) := by exact_mod_cast (by omega : (0 : Int) < limit)
  have htq : (0 : ℚ) ≤ (total : ℚ) := by exact_mod_cast ht
  refine ⟨?_, ?_, ?_⟩
  · unfold pages
    exact Int.ceil_nonneg (div_nonneg htq hlq.le)
  · have h := Int.le_ceil ((total : ℚ) / (limit : ℚ))
    rw [div_le_iff₀ hlq] at h
    unfold pages
    exact_mod_cast h
  · intro p hp
    unfold pages
    rw [Int.ceil_le, div_le_iff₀ hlq]
    exact_mod_cast hp

/-- Witness of C9: `limit = 2` and `total = 5` give the least cover, 3 pages. -/
theorem pages_is_least_cover_witness :
    0 ≤ pages 5 2 ∧ 5 ≤ pages 5 2 * 2 ∧ ∀ p : Int, 5 ≤ p * 2 → pages 5 2 ≤ p :=
  pages_is_least_cover 5 2 (by decide) (by decide)

/-- The `pages` field of a successful answer is `Math.ceil(total / limit)` of
its `total` and `limit` fields, and `total` is a row count. -/
theorem listContacts_pages_field (q : ListQuery) (db : Db) (d : ListData)
    (hd : (listContacts q db).1.data = some d) :
    d.pagination.pages = pages d.pagination.total d.pagination.limit ∧
      0 ≤ d.pagination.total ∧ d.pagination.limit = q.limitNum := by
  unfold listContacts at hd
  cases hsel : db.selectList q.whereClauses (q.limitNum != -1) q.params with
  | error e => simp [hsel] at hd
  | ok rows =>
    cases hcnt : db.selectCount q.whereClauses q.countParams with
    | error e => simp [hsel, hcnt] at hd
    | ok total =>
      simp only [hsel, hcnt, Option.some.injEq] at hd
      subst hd
      exact ⟨rfl, Int.natCast_nonneg _, rfl⟩

/-! ## The sentinel `limit = -1` -/

theorem params_noLimit (q : ListQuery) (hl : q.limitNum = -1) : q.params = q.searchParams := by
  simp [ListQuery.params, hl]

theorem placeholders_whereClauses (q : ListQuery) :
    placeholders q.whereClauses = q.searchParams.length := by
  unfold ListQuery.whereClauses ListQuery.searchParams placeholders
  cases (q.searchText != "") <;> cases (q.bookmarked == some "true") <;> rfl

theorem countParams_noLimit (q : ListQuery) (hl : q.limitNum = -1) :
    q.countParams = q.searchParams := by
  unfold ListQuery.countParams
  rw [params_noLimit q hl]
  unfold ListQuery.whereClauses ListQuery.searchParams
  cases (q.searchText != "") <;> cases (q.bookmarked == some "true") <;> rfl

theorem sql_noLimit (q : ListQuery) (hl : q.limitNum = -1) :
    q.sql = sqlListBase ++ whereSql q.whereClauses ++
      " GROUP BY c.id ORDER BY c.updated_at DESC" := by
  simp [ListQuery.sql, hl]

set_option maxRecDepth 200000 in
theorem sql_noLimit_text (q : ListQuery) (hl : q.limitNum = -1) :
    hasInfix "LIMIT".data q.sql.data = false ∧ hasInfix "OFFSET".data q.sql.data = false := by
  rw [sql_noLimit q hl]
  unfold ListQuery.whereClauses
  cases (q.searchText != "") <;> cases (q.bookmarked == some "true") <;> decide

/-- With `limit = -1` both statements succeed and the answer carries every
row of the unpaginated statement. -/
theorem listContacts_noLimit (q : ListQuery) (db : Db) (hl : q.limitNum = -1) :
    (listContacts q db).1 = ⟨200, some
      { data := (db.sortedRows q.whereClauses q.searchParams).map rowToContact
        pagination :=
          { page := q.pageNum
            limit := -1
            total := ((db.contacts.filter
              (fun c => whereHolds db c q.whereClauses q.searchParams)).length : Nat)
            pages := pages ((db.contacts.filter
              (fun c => whereHolds db c q.whereClauses q.searchParams)).length : Nat) (-1) } }⟩ := by
  have hph : ¬ placeholders q.whereClauses < q.searchParams.length := by
    rw [placeholders_whereClauses]
    exact Nat.lt_irrefl _
  have hsel : db.selectList q.whereClauses (q.limitNum != -1) q.params =
      .ok (db.sortedRows q.whereClauses q.searchParams) := by
    rw [params_noLimit q hl, hl]
    exact selectList_noLimit db _ _ hph
  have hcnt : db.selectCount q.whereClauses q.countParams =
      .ok (db.contacts.filter (fun c => whereHolds db c q.whereClauses q.searchParams)).length := by
    rw [countParams_noLimit q hl]
    simp only [Db.selectCount, hph, if_false]
  rw [hl] at hsel
  simp only [listContacts, hl, hsel, hcnt]

theorem searchParams_page (q : ListQuery) (p : Option String) :
    (⟨p, q.limit, q.search, q.bookmarked⟩ : ListQuery).searchParams = q.searchParams ∧
      (⟨p, q.limit, q.search, q.bookmarked⟩ : ListQuery).whereClauses = q.whereClauses ∧
      (⟨p, q.limit, q.search, q.bookmarked⟩ : ListQuery).limitNum = q.limitNum :=
  ⟨rfl, rfl, rfl⟩

/-- C10: a list request with `limit = -1` builds the statement without LIMIT
or OFFSET and binds only the search values; it answers 200 with every contact
that the filter selects, the ids of the answer being a permutation of the ids
of the selected contacts (without repetition on a store whose ids are a
primary key), and the returned contacts are the same for every `page`. -/
theorem list_sentinel_returns_all (q : ListQuery) (db : Db) (hl : q.limitNum = -1) :
    q.sql = sqlListBase ++ whereSql q.whereClauses ++
        " GROUP BY c.id ORDER BY c.updated_at DESC" ∧
      hasInfix "LIMIT".data q.sql.data = false ∧ hasInfix "OFFSET".data q.sql.data = false ∧
      q.params = q.searchParams ∧
      ∃ d, (listContacts q db).1 = ⟨200, some d⟩ ∧
        (d.data.map (fun c => c.id)).Perm
          ((db.contacts.filter (fun c => q.selects db c)).map (fun c => c.id)) ∧
        (db.WellFormed → (d.data.map (fun c => c.id)).Nodup) ∧
        d.pagination.total = (db.contacts.filter (fun c => q.selects db c)).length ∧
        ∀ p : Option String, ∃ d2,
          (listContacts ⟨p, q.limit, q.search, q.bookmarked⟩ db).1 = ⟨200, some d2⟩ ∧
            d2.data = d.data := by
  have hsel : (fun c => q.selects db c) =
      (fun c => whereHolds db c q.whereClauses q.searchParams) := by
    funext c
    rw [ListQuery.selects, params_noLimit q hl]
  have hperm : (((db.sortedRows q.whereClauses q.searchParams).map rowToContact).map
      (fun c => c.id)).Perm
      ((db.contacts.filter (fun c => q.selects db c)).map (fun c => c.id)) := by
    rw [hsel, List.map_map]
    unfold Db.sortedRows
    refine ((List.perm_insertionSort _ _).map _).trans ?_
    rw [List.map_map]
    exact List.Perm.of_eq rfl
  refine ⟨sql_noLimit q hl, (sql_noLimit_text q hl).1, (sql_noLimit_text q hl).2,
    params_noLimit q hl, _, listContacts_noLimit q db hl, hperm, ?_, ?_, ?_⟩
  · intro hwf
    refine hperm.nodup_iff.mpr ?_
    have hsub : ((db.contacts.filter (fun c => q.selects db c)).map (fun c => c.id)).Sublist
        (db.contacts.map (fun c => c.id)) := (List.filter_sublist _).map _
    exact hsub.nodup hwf.1
  · show ((db.contacts.filter
      (fun c => whereHolds db c q.whereClauses q.searchParams)).length : Int) = _
    rw [hsel]
  · intro p
    obtain ⟨h1, h2, h3⟩ := searchParams_page q p
    refine ⟨_, listContacts_noLimit ⟨p, q.limit, q.search, q.bookmarked⟩ db (h3.trans hl), ?_⟩
    show (db.sortedRows _ _).map rowToContact = (db.sortedRows _ _).map rowToContact
    rw [h1, h2]

/-- Witness of C10: `GET /?page=7&limit=-1` on the seed store. -/
theorem list_sentinel_returns_all_witness :
    ∃ d, (listContacts ⟨some "7", some "-1", none, none⟩ seedDb).1 = ⟨200, some d⟩ ∧
      (d.data.map (fun c => c.id)).Perm
        ((seedDb.contacts.filter
          (fun c => (⟨some "7", some "-1", none, none⟩ : ListQuery).selects seedDb c)).map
          (fun c => c.id)) :=
  let ⟨d, h1, h2, _⟩ :=
    (list_sentinel_returns_all ⟨some "7", some "-1", none, none⟩ seedDb (by decide)).2.2.2.2
  ⟨d, h1, h2⟩

/-- Witness of C6: in the answer to `GET /?limit=-1` on the seed store the
contact `张三` carries its two stored pairs. -/
theorem list_decode_faithful_witness :
    (rowToContact ⟨seedZhang, groupConcat (seedDb.methodsOf seedZhang.id)⟩).methods =
      [⟨"手机号码", "13800138000"⟩, ⟨"邮箱地址", "zhangsan@example.com"⟩] :=
  (list_decode_faithful ⟨none, some "-1", none, none⟩ seedDb _
    (congrArg Response.data
      (listContacts_noLimit ⟨none, some "-1", none, none⟩ seedDb (by decide)))
    (rowToContact ⟨seedZhang, groupConcat (seedDb.methodsOf seedZhang.id)⟩)
    (by decide)).1 (by decide)

/-! ## The schema constraints are kept -/

theorem seedDb_wellFormed : seedDb.WellFormed := ⟨by decide, by decide⟩

theorem wellFormed_of_tables (db db2 : Db) (hc : db2.contacts = db.contacts)
    (hm : db2.contact_methods = db.contact_methods) (hwf : db.WellFormed) : db2.WellFormed := by
  constructor
  · rw [hc]
    exact hwf.1
  · intro m hmem
    show db2.contacts.any (fun c => c.id == m.contact_id) = true
    rw [hc]
    rw [hm] at hmem
    exact hwf.2 m hmem

/-- `POST /` keeps the primary-key and foreign-key constraints, whatever it answers. -/
theorem createContact_wellFormed (uuid now : String) (body : ContactBody) (db : Db)
    (hwf : db.WellFormed) : (createContact uuid now body db).2.WellFormed := by
  by_cases hname : truthyStr body.name = true
  · rcases iterated_cases body.methods with hit | hit
    swap
    · obtain ⟨_, hc, hm⟩ := createContact_notIterable uuid now body db hname hit
      exact wellFormed_of_tables db _ hc hm hwf
    cases hfresh : db.hasContact uuid with
    | false =>
      obtain ⟨db2, rows, hrun, hc, hm, hown, _⟩ :=
        createContact_ok uuid now body db hname hfresh hit
      rw [hrun]
      constructor
      · show (db2.contacts.map (fun c => c.id)).Nodup
        rw [hc, List.map_append, List.nodup_append]
        refine ⟨hwf.1, by simp, ?_⟩
        intro x hx hx2
        simp only [List.map_cons, List.map_nil, List.mem_singleton] at hx2
        have : db.hasContact uuid = true := by
          rw [hasContact_iff]
          obtain ⟨c, hc1, hc2⟩ := List.mem_map.mp hx
          exact ⟨c, hc1, by rw [hc2, hx2]; rfl⟩
        rw [hfresh] at this
        exact Bool.noConfusion this
      · intro m hmem
        show db2.hasContact m.contact_id = true
        rw [hasContact_iff, hc]
        rw [hm] at hmem
        rcases List.mem_append.mp hmem with h | h
        · obtain ⟨c, hc1, hc2⟩ := (hasContact_iff db _).mp (hwf.2 m h)
          exact ⟨c, List.mem_append_left _ hc1, hc2⟩
        · exact ⟨newRow uuid now body, by simp, (hown m h).symm⟩
    | true =>
      have hb : (db.exec sqlBegin).hasContact uuid = true := hfresh
      have : (createContact uuid now body db).2 =
          Db.rollback db ((db.exec sqlBegin).exec sqlInsertContact) := by
        simp [createContact, hname, Db.insertContact, hb]
      rw [this]
      exact hwf
  · have : (createContact uuid now body db).2 = db := by
      simp [createContact, hname]
    rw [this]
    exact hwf

/-- `DELETE /:id` keeps the primary-key and foreign-key constraints. -/
theorem deleteContact_wellFormed (id : String) (db : Db) (hwf : db.WellFormed) :
    (deleteContact id db).2.WellFormed := by
  cases hex : db.hasContact id with
  | false =>
    have : (deleteContact id db).2 = db.exec sqlSelectName := by
      simp [deleteContact, hex]
    rw [this]
    exact hwf
  | true =>
    rw [deleteContact_ok id db hex]
    constructor
    · show ((db.contacts.filter (fun c => !(c.id == id))).map (fun c => c.id)).Nodup
      exact ((List.filter_sublist _).map _).nodup hwf.1
    · intro m hm
      have hm2 : m ∈ (db.contact_methods.filter (fun m => !(m.contact_id == id))).filter
          (fun m => !(m.contact_id == id)) := hm
      obtain ⟨hm3, hne⟩ := List.mem_filter.mp (List.mem_filter.mp hm2).1
      obtain ⟨c, hc1, hc2⟩ := (hasContact_iff db _).mp (hwf.2 m hm3)
      show (db.contacts.filter (fun c => !(c.id == id))).any (fun c => c.id == m.contact_id) = true
      rw [List.any_eq_true]
      refine ⟨c, List.mem_filter.mpr ⟨hc1, ?_⟩, by simp [hc2]⟩
      rw [hc2]
      exact hne

/-- `PUT /:id` keeps the primary-key and foreign-key constraints. -/
theorem updateContact_wellFormed (id now : String) (body : ContactBody) (db : Db)
    (hwf : db.WellFormed) : (updateContact id now body db).2.WellFormed := by
  have hids : ∀ cs : List ContactRow,
      (cs.map (updatedRow id now body)).map (fun c => c.id) = cs.map (fun c => c.id) := by
    intro cs
    rw [List.map_map]
    apply List.map_congr_left
    intro c _
    show (updatedRow id now body c).id = c.id
    unfold updatedRow
    split <;> rfl
  by_cases hname : truthyStr body.name = true
  · cases hex : db.hasContact id with
    | false =>
      have : (updateContact id now body db).2 = db.exec sqlSelectId := by
        simp [updateContact, hname, hex]
      rw [this]
      exact hwf
    | true =>
      rcases iterated_cases body.methods with hit | hit
      swap
      · obtain ⟨_, hc, hm⟩ := updateContact_notIterable id now body db hname hex hit
        exact wellFormed_of_tables db _ hc hm hwf
      obtain ⟨db2, rows, hrun, hc, hm, hown, _⟩ :=
        updateContact_ok id now body db hname hex hit
      rw [hrun]
      constructor
      · show (db2.contacts.map (fun c => c.id)).Nodup
        rw [hc, hids]
        exact hwf.1
      · intro m hmem
        show db2.contacts.any (fun c => c.id == m.contact_id) = true
        rw [hc, hasContact_map_updatedRow]
        rw [hm] at hmem
        rcases List.mem_append.mp hmem with h | h
        · exact hwf.2 m (List.mem_filter.mp h).1
        · rw [hown m h]
          exact hex
  · have : (updateContact id now body db).2 = db := by
      simp [updateContact, hname]
    rw [this]
    exact hwf

/-! ## Structured import -/

theorem importRow_nameless (uuid now : String) (i : Nat) (c : ContactBody) (st : ImportState)
    (h : truthyStr c.name = false) :
    importRow uuid now i c st =
      ⟨st.db, st.successCount, st.failCount + 1, st.errors ++ [nameMissing i]⟩ := by
  simp [importRow, h]

/-- A named row whose id is new is inserted: the contact row and one method
row per valid entry are appended, only the success counter moves. -/
theorem importRow_named (uuid now : String) (i : Nat) (c : ContactBody) (st : ImportState)
    (h : truthyStr c.name = true) (hfresh : st.db.hasContact uuid = false) :
    ∃ db2 rows, importRow uuid now i c st =
        ⟨db2, st.successCount + 1, st.failCount, st.errors⟩ ∧
      db2.contacts = st.db.contacts ++ [newRow uuid now c] ∧
      db2.contact_methods = st.db.contact_methods ++ rows ∧
      (∀ r ∈ rows, r.contact_id = uuid) ∧
      rows.map MethodRow.toJson = validMethods (c.methods.entries) := by
  have hins : st.db.insertContact (newRow uuid now c) =
      .ok (Db.mk (st.db.contacts ++ [newRow uuid now c]) st.db.contact_methods st.db.seq
        (st.db.log ++ [sqlInsertContact])) := by
    simp only [Db.insertContact]
    rw [show (newRow uuid now c).id = uuid from rfl, hfresh]
    rfl
  have hhas : Db.hasContact (Db.mk (st.db.contacts ++ [newRow uuid now c])
      st.db.contact_methods st.db.seq (st.db.log ++ [sqlInsertContact])) uuid = true := by
    simp [Db.hasContact, newRow]
  obtain ⟨db2, rows, hrun, hc, hm, hown, hrows⟩ :=
    insertMethods_spec uuid (c.methods.entries) _ hhas
  refine ⟨db2, rows, ?_, hc, hm, hown, hrows⟩
  have hins2 := hins
  have hrun2 := hrun
  simp only [newRow] at hins2 hrun2
  simp only [importRow, h, Bool.not_true, Bool.false_eq_true, if_false, hins2, hrun2]

theorem hasContact_append_new (db db2 : Db) (row : ContactRow) (x : String)
    (hc : db2.contacts = db.contacts ++ [row]) (hx : db.hasContact x = false)
    (hne : row.id ≠ x) : db2.hasContact x = false := by
  have h1 : db.contacts.any (fun c => c.id == x) = false := hx
  show db2.contacts.any (fun c => c.id == x) = false
  rw [hc, List.any_append, h1]
  simp [hne]

/-- The loop over rows whose generated ids are new and pairwise different:
counters, messages and the `contacts` table after the last row. -/
theorem importLoop_spec (uuid now : Nat → String) (cs : List ContactBody) :
    ∀ (i : Nat) (st : ImportState),
      (∀ k, i ≤ k → k < i + cs.length → st.db.hasContact (uuid k) = false) →
      (∀ l, l < i + cs.length → ∀ k, i ≤ k → k < l → uuid k ≠ uuid l) →
      (importLoop uuid now i cs st).successCount =
          st.successCount + (cs.filter (fun c => truthyStr c.name)).length ∧
        (importLoop uuid now i cs st).failCount =
          st.failCount + (cs.filter (fun c => !truthyStr c.name)).length ∧
        (importLoop uuid now i cs st).errors = st.errors ++ namelessErrors i cs ∧
        (importLoop uuid now i cs st).db.contacts =
          st.db.contacts ++ namedRows uuid now i cs := by
  induction cs with
  | nil =>
    intro i st _ _
    simp [importLoop, namelessErrors, namedRows]
  | cons c cs ih =>
    intro i st hfresh hinj
    have hlen : (c :: cs).length = cs.length + 1 := rfl
    cases hname : truthyStr c.name with
    | false =>
      have hstep := importRow_nameless (uuid i) (now i) i c st hname
      have := ih (i + 1) (importRow (uuid i) (now i) i c st)
        (by
          intro k hk1 hk2
          rw [hstep]
          exact hfresh k (by omega) (by rw [hlen]; omega))
        (by
          intro l hl k hk1 hk2
          exact hinj l (by rw [hlen]; omega) k (by omega) hk2)
      obtain ⟨h1, h2, h3, h4⟩ := this
      rw [hstep] at h1 h2 h3 h4
      simp only [importLoop, hstep]
      refine ⟨?_, ?_, ?_, ?_⟩
      · rw [h1]
        simp [List.filter_cons, hname]
      · rw [h2]
        simp [List.filter_cons, hname]
        omega
      · rw [h3]
        simp [namelessErrors, hname]
      · rw [h4]
        simp [namedRows, hname]
    | true =>
      have hfi : st.db.hasContact (uuid i) = false :=
        hfresh i (Nat.le_refl _) (by rw [hlen]; omega)
      obtain ⟨db2, rows, hstep, hc, _, _, _⟩ :=
        importRow_named (uuid i) (now i) i c st hname hfi
      have := ih (i + 1) (importRow (uuid i) (now i) i c st)
        (by
          intro k hk1 hk2
          rw [hstep]
          refine hasContact_append_new st.db db2 _ (uuid k) hc
            (hfresh k (by omega) (by rw [hlen]; omega)) ?_
          exact hinj k (by rw [hlen]; omega) i (Nat.le_refl _) (by omega))
        (by
          intro l hl k hk1 hk2
          exact hinj l (by rw [hlen]; omega) k (by omega) hk2)
      obtain ⟨h1, h2, h3, h4⟩ := this
      rw [hstep] at h1 h2 h3 h4
      simp only [importLoop, hstep]
      refine ⟨?_, ?_, ?_, ?_⟩
      · rw [h1]
        simp [List.filter_cons, hname]
        omega
      · rw [h2]
        simp [List.filter_cons, hname]
      · rw [h3]
        simp [namelessErrors, hname]
      · rw [h4, hc]
        simp [namedRows, hname]

theorem importContacts_eq (uuid now : Nat → String) (rows : List ContactBody) (db : Db)
    (hne : rows ≠ []) :
    importContacts uuid now (some rows) db =
      (⟨200, some
        { total := rows.length
          success := (importLoop uuid now 0 rows ⟨db.exec sqlBegin, 0, 0, []⟩).successCount
          failed := (importLoop uuid now 0 rows ⟨db.exec sqlBegin, 0, 0, []⟩).failCount
          errors := (importLoop uuid now 0 rows ⟨db.exec sqlBegin, 0, 0, []⟩).errors.take 10 }⟩,
        (importLoop uuid now 0 rows ⟨db.exec sqlBegin, 0, 0, []⟩).db.exec sqlCommit) := by
  have hlen : (rows.length == 0) = false := by
    cases rows with
    | nil => exact absurd rfl hne
    | cons _ _ => rfl
  have htake : ∀ l : List String, (if l.length > 0 then l.take 10 else []) = l.take 10 := by
    intro l
    cases l with
    | nil => rfl
    | cons _ _ => simp
  simp only [importContacts, hlen, Bool.false_eq_true, if_false, htake]

/-- C11: structured import tolerates rows without name.  For a non-empty
array of rows whose generated ids are new to the store and pairwise
different, `POST /import` answers 200 with `total` the number of rows,
`success` the number of rows with a non-empty name and `failed` the number of
the others; the array `errors` built by the loop holds, in row order, one
message with the 1-based row number per row without name (the answer carries
its first ten); and the transaction is committed with one new `contacts` row
for exactly the rows with a name. -/
theorem import_tolerates_nameless_rows (uuid now : Nat → String) (rows : List ContactBody)
    (db : Db) (hne : rows ≠ [])
    (hfresh : ∀ k < rows.length, db.hasContact (uuid k) = false)
    (hinj : ∀ l < rows.length, ∀ k < l, uuid k ≠ uuid l) :
    ∃ d, (importContacts uuid now (some rows) db).1 = ⟨200, some d⟩ ∧
      d.total = rows.length ∧
      d.success = (rows.filter (fun c => truthyStr c.name)).length ∧
      d.failed = (rows.filter (fun c => !truthyStr c.name)).length ∧
      (importLoop uuid now 0 rows ⟨db.exec sqlBegin, 0, 0, []⟩).errors =
        namelessErrors 0 rows ∧
      d.errors = (namelessErrors 0 rows).take 10 ∧
      (importContacts uuid now (some rows) db).2.contacts =
        db.contacts ++ namedRows uuid now 0 rows ∧
      (importContacts uuid now (some rows) db).2.log.getLast? = some sqlCommit := by
  obtain ⟨h1, h2, h3, h4⟩ := importLoop_spec uuid now rows 0 ⟨db.exec sqlBegin, 0, 0, []⟩
    (by
      intro k _ hk
      exact hfresh k (by omega))
    (by
      intro l hl k _ hk
      exact hinj l (by omega) k hk)
  rw [importContacts_eq uuid now rows db hne]
  refine ⟨_, rfl, rfl, ?_, ?_, ?_, ?_, ?_, ?_⟩
  · simpa using h1
  · simpa using h2
  · simpa using h3
  · show ((importLoop uuid now 0 rows ⟨db.exec sqlBegin, 0, 0, []⟩).errors).take 10 = _
    rw [h3]
    rfl
  · exact h4
  · simp [Db.exec]

/-- Witness of C11: three rows of which the second has no name, on the seed store. -/
theorem import_tolerates_nameless_rows_witness :
    ∃ d, (importContacts (fun i => "u-" ++ toString i) (fun _ => "2024-05-01T00:00:00.000Z")
        (some [⟨some "甲", none, .null, .absent⟩, ⟨none, some "x", .null, .absent⟩,
          ⟨some "丙", none, .bool true, .array [⟨some "手机号码", some "1"⟩]⟩]) seedDb).1 =
        ⟨200, some d⟩ ∧
      d.total = 3 ∧ d.success = 2 ∧ d.failed = 1 ∧ d.errors = ["第 2 行: 姓名不能为空"] ∧
      ((importContacts (fun i => "u-" ++ toString i) (fun _ => "2024-05-01T00:00:00.000Z")
        (some [⟨some "甲", none, .null, .absent⟩, ⟨none, some "x", .null, .absent⟩,
          ⟨some "丙", none, .bool true, .array [⟨some "手机号码", some "1"⟩]⟩]) seedDb).2.contacts.map
        (fun c => c.name)) = ["张三", "李四", "王五", "甲", "丙"] :=
  let ⟨d, h0, h1, h2, h3, _, h5, h6, _⟩ :=
    import_tolerates_nameless_rows (fun i => "u-" ++ toString i)
      (fun _ => "2024-05-01T00:00:00.000Z")
      [⟨some "甲", none, .null, .absent⟩, ⟨none, some "x", .null, .absent⟩,
        ⟨some "丙", none, .bool true, .array [⟨some "手机号码", some "1"⟩]⟩] seedDb
      (by decide) (by decide) (by decide)
  ⟨d, h0, h1, h2, h3, h5, by rw [h6]; decide⟩

/-! ## The error list of the import answer -/

theorem importRow_errors_length (uuid now : String) (i : Nat) (c : ContactBody)
    (st : ImportState) :
    (importRow uuid now i c st).errors.length + st.failCount =
        st.errors.length + (importRow uuid now i c st).failCount ∧
      ∃ more, (importRow uuid now i c st).errors = st.errors ++ more := by
  unfold importRow
  split
  · exact ⟨by simp; omega, _, rfl⟩
  · split
    · simp only []
      cases insertMethods uuid (c.methods.entries) _ with
      | ok db3 => exact ⟨by simp, [], by simp⟩
      | error e => exact ⟨by simp; omega, _, rfl⟩
    · exact ⟨by simp; omega, _, rfl⟩

theorem importLoop_errors_length (uuid now : Nat → String) (cs : List ContactBody) :
    ∀ (i : Nat) (st : ImportState),
      (importLoop uuid now i cs st).errors.length + st.failCount =
          st.errors.length + (importLoop uuid now i cs st).failCount ∧
        ∃ more, (importLoop uuid now i cs st).errors = st.errors ++ more := by
  induction cs with
  | nil =>
    intro i st
    exact ⟨rfl, [], by simp [importLoop]⟩
  | cons c cs ih =>
    intro i st
    obtain ⟨h1, m1, h2⟩ := importRow_errors_length (uuid i) (now i) i c st
    obtain ⟨h3, m2, h4⟩ := ih (i + 1) (importRow (uuid i) (now i) i c st)
    simp only [importLoop]
    refine ⟨by omega, m1 ++ m2, ?_⟩
    rw [h4, h2, List.append_assoc]

theorem importLoop_append (uuid now : Nat → String) (r1 r2 : List ContactBody) :
    ∀ (i : Nat) (st : ImportState),
      importLoop uuid now i (r1 ++ r2) st =
        importLoop uuid now (i + r1.length) r2 (importLoop uuid now i r1 st) := by
  induction r1 with
  | nil =>
    intro i st
    rfl
  | cons c r1 ih =>
    intro i st
    show importLoop uuid now (i + 1) (r1 ++ r2) (importRow (uuid i) (now i) i c st) =
      importLoop uuid now (i + (r1.length + 1)) r2
        (importLoop uuid now (i + 1) r1 (importRow (uuid i) (now i) i c st))
    rw [ih, show i + 1 + r1.length = i + (r1.length + 1) by omega]

/-- C12: for every non-empty batch the `errors` list of the answer has at
most 10 entries and is the first `min 10 n` of the `n` messages that the loop
collected, where `n` is the reported number of failed rows; the messages
stand in row order (those of a leading part of the rows are a leading part of
all messages); and when no row failed the list is empty. -/
theorem import_errors_truncated (uuid now : Nat → String) (rows : List ContactBody) (db : Db)
    (hne : rows ≠ []) :
    ∃ d, (importContacts uuid now (some rows) db).1 = ⟨200, some d⟩ ∧
      d.errors.length ≤ 10 ∧
      (importLoop uuid now 0 rows ⟨db.exec sqlBegin, 0, 0, []⟩).errors.length = d.failed ∧
      d.errors = (importLoop uuid now 0 rows ⟨db.exec sqlBegin, 0, 0, []⟩).errors.take
        (min 10 d.failed) ∧
      (∀ r1 r2, rows = r1 ++ r2 →
        (importLoop uuid now 0 r1 ⟨db.exec sqlBegin, 0, 0, []⟩).errors <+:
          (importLoop uuid now 0 rows ⟨db.exec sqlBegin, 0, 0, []⟩).errors) ∧
      (d.failed = 0 → d.errors = []) := by
  have hlen := (importLoop_errors_length uuid now rows 0 ⟨db.exec sqlBegin, 0, 0, []⟩).1
  simp only [List.length_nil, Nat.add_zero, Nat.zero_add] at hlen
  rw [importContacts_eq uuid now rows db hne]
  refine ⟨_, rfl, ?_, hlen, ?_, ?_, ?_⟩
  · show ((importLoop uuid now 0 rows ⟨db.exec sqlBegin, 0, 0, []⟩).errors.take 10).length ≤ 10
    rw [List.length_take]
    exact Nat.min_le_left _ _
  · show (importLoop uuid now 0 rows ⟨db.exec sqlBegin, 0, 0, []⟩).errors.take 10 =
      (importLoop uuid now 0 rows ⟨db.exec sqlBegin, 0, 0, []⟩).errors.take
        (min 10 (importLoop uuid now 0 rows ⟨db.exec sqlBegin, 0, 0, []⟩).failCount)
    rw [← hlen]
    by_cases h : 10 ≤ (importLoop uuid now 0 rows ⟨db.exec sqlBegin, 0, 0, []⟩).errors.length
    · rw [Nat.min_eq_left h]
    · rw [Nat.min_eq_right (by omega), List.take_length,
        List.take_of_length_le (by omega)]
  · intro r1 r2 hr
    rw [hr, importLoop_append]
    obtain ⟨_, more, hmore⟩ := importLoop_errors_length uuid now r2 (0 + r1.length)
      (importLoop uuid now 0 r1 ⟨db.exec sqlBegin, 0, 0, []⟩)
    exact ⟨more, hmore.symm⟩
  · intro hz
    show (importLoop uuid now 0 rows ⟨db.exec sqlBegin, 0, 0, []⟩).errors.take 10 = []
    have hz2 : (importLoop uuid now 0 rows ⟨db.exec sqlBegin, 0, 0, []⟩).failCount = 0 := hz
    rw [hz2] at hlen
    rw [List.length_eq_zero.mp hlen]
    rfl

/-- Witness of C12: twelve rows without name give twelve messages, of which
the answer carries the first ten. -/
theorem import_errors_truncated_witness :
    ∃ d, (importContacts (fun i => "u-" ++ toString i) (fun _ => "t")
        (some (List.replicate 12 ⟨none, none, .null, .absent⟩)) seedDb).1 = ⟨200, some d⟩ ∧
      d.errors.length ≤ 10 ∧
      (importLoop (fun i => "u-" ++ toString i) (fun _ => "t") 0
        (List.replicate 12 ⟨none, none, .null, .absent⟩)
        ⟨seedDb.exec sqlBegin, 0, 0, []⟩).errors.length = d.failed :=
  let ⟨d, h0, h1, h2, _⟩ :=
    import_errors_truncated (fun i => "u-" ++ toString i) (fun _ => "t")
      (List.replicate 12 ⟨none, none, .null, .absent⟩) seedDb (by decide)
  ⟨d, h0, h1, h2⟩

/-! ## Spreadsheet cells -/

theorem regexSplit_eq_splitOnP_go (isSep : Char → Bool) (s : List Char) :
    ∀ cur, regexSplit isSep s cur = List.splitOnP.go isSep s cur := by
  induction s with
  | nil =>
    intro cur
    rfl
  | cons c s ih =>
    intro cur
    simp only [regexSplit, List.splitOnP.go, ih]

/-- The values derived from a cell are the trimmed non-empty pieces of its text. -/
theorem cellValues_eq_trimmedPieces (cell : Cell) :
    cellValues cell = trimmedPieces cell.toStr := by
  unfold cellValues trimmedPieces List.splitOnP
  rw [regexSplit_eq_splitOnP_go]
  congr 1
  apply List.filter_congr
  intro v _
  cases v <;> simp

theorem filter_columnMethods (row : SheetRow) (t col : String) :
    (columnMethods row t).filter (fun m => m.type == col) =
      if t = col then columnMethods row t else [] := by
  have hall : ∀ m ∈ columnMethods row t, m.type = t := by
    intro m hm
    unfold columnMethods at hm
    split at hm
    · cases hm
    · split at hm
      · obtain ⟨v, _, rfl⟩ := List.mem_map.mp hm
        rfl
      · cases hm
  by_cases h : t = col
  · rw [if_pos h, List.filter_eq_self]
    intro m hm
    simp [hall m hm, h]
  · rw [if_neg h, List.filter_eq_nil_iff]
    intro m hm
    simp [hall m hm, h]

/-- C13 as stated fails: a row whose `手机号码` cell holds the number 0 has a
cell that is not empty (its text is `0`, whose only piece is `0`), yet the
conversion derives no method for that column. -/
theorem zero_cell_counterexample :
    (convertRow [("姓名", .text "甲"), ("手机号码", .number 0)] 0).toOption.map
        (fun c => c.methods.filter (fun m => m.type == "手机号码")) = some [] ∧
      (trimmedPieces (Cell.number 0).toStr).map (fun v => (⟨"手机号码", v⟩ : MethodJson)) =
        [⟨"手机号码", "0"⟩] := by
  decide

/-- C13, amended: for every sheet row that has a name and every recognised
method column, the methods that the conversion derives with that column name
as type are, when the cell is present and truthy (a non-empty text, a number
other than 0, or `true`), exactly the pieces of the cell text split at every
`;`, `,` or `，`, each trimmed, the empty ones dropped, in their order; a
column that is absent or whose cell is falsy contributes no method. -/
theorem column_methods_are_trimmed_pieces (row : SheetRow) (index : Nat) (contact : SheetContact)
    (col : String) (hrow : convertRow row index = .ok contact) (hcol : col ∈ methodTypes) :
    contact.methods.filter (fun m => m.type == col) =
      match row.lookup col with
      | none => []
      | some cell =>
        if cell.truthy then (trimmedPieces cell.toStr).map (fun v => ⟨col, v⟩) else [] := by
  have hm : contact.methods = (methodTypes.map (columnMethods row)).flatten := by
    unfold convertRow at hrow
    simp only at hrow
    split at hrow
    · cases hrow
    · cases hrow
      rfl
  have hfilter : contact.methods.filter (fun m => m.type == col) = columnMethods row col := by
    rw [hm]
    simp only [methodTypes, List.map_cons, List.map_nil, List.flatten_cons, List.flatten_nil,
      List.append_nil, List.filter_append, filter_columnMethods]
    simp only [methodTypes, List.mem_cons, List.mem_singleton, List.not_mem_nil, or_false] at hcol
    rcases hcol with h | h | h | h <;> subst h <;> simp
  rw [hfilter]
  unfold columnMethods
  cases row.lookup col with
  | none => rfl
  | some cell => simp only [cellValues_eq_trimmedPieces]

/-- Witness of C13: a phone cell with three kinds of delimiter and blanks. -/
theorem column_methods_are_trimmed_pieces_witness :
    (⟨.text "甲", .text "", false,
        [⟨"手机号码", "138"⟩, ⟨"手机号码", "139"⟩, ⟨"手机号码", "x"⟩, ⟨"社交账号", "5"⟩]⟩ :
        SheetContact).methods.filter (fun m => m.type == "手机号码") =
      [⟨"手机号码", "138"⟩, ⟨"手机号码", "139"⟩, ⟨"手机号码", "x"⟩] :=
  column_methods_are_trimmed_pieces
    [("姓名", .text "甲"), ("手机号码", .text " 138 ; 139，,  x"), ("邮箱地址", .number 0),
      ("社交账号", .number 5)] 0
    ⟨.text "甲", .text "", false,
      [⟨"手机号码", "138"⟩, ⟨"手机号码", "139"⟩, ⟨"手机号码", "x"⟩, ⟨"社交账号", "5"⟩]⟩
    "手机号码" rfl (by decide)

/-! ## Delimiter collision -/

/-- C14: a stored method with non-empty type and value is corrupted by the
list decoding when its value holds a delimiter.  With the value
`http://x.com` the list endpoint returns the value `http`, with the value
`a;;b` it returns the value `a`; in both stores the returned list differs
from the stored pairs, while `GET /:id` returns the stored pair intact. -/
theorem delimiter_collision_corrupts_list :
    ((listContacts ⟨none, none, none, none⟩ colonDb).1.data.map
        (fun d => d.data.map (fun c => c.methods)) = some [[⟨"社交账号", "http"⟩]] ∧
      colonDb.pairsOf "c-1" = [⟨"社交账号", "http://x.com"⟩] ∧
      (getContact "c-1" colonDb).1.data.map (fun c => c.methods) =
        some [⟨"社交账号", "http://x.com"⟩]) ∧
    ((listContacts ⟨none, none, none, none⟩ semicolonDb).1.data.map
        (fun d => d.data.map (fun c => c.methods)) = some [[⟨"联系地址", "a"⟩]] ∧
      semicolonDb.pairsOf "c-1" = [⟨"联系地址", "a;;b"⟩] ∧
      (getContact "c-1" semicolonDb).1.data.map (fun c => c.methods) =
        some [⟨"联系地址", "a;;b"⟩]) := by
  decide

/-! ## The parsed limit -/

theorem parseIntOr_ne_zero (x : Option String) (d : Int) (hd : d ≠ 0) : parseIntOr x d ≠ 0 := by
  unfold parseIntOr
  split
  · exact hd
  · split
    · exact hd
    · assumption

theorem pages_neg_one (total : Int) : pages total (-1) = -total := by
  unfold pages
  have : ((total : ℚ) / ((-1 : Int) : ℚ)) = ((-total : Int) : ℚ) := by
    push_cast
    ring
  rw [this, Int.ceil_intCast]

/-- C15: for every `limit` query string the effective limit is an integer
other than 0 (an absent parameter, one that `parseInt` reads as `NaN`, and 0
all become 100), and the `pages` field of every successful answer is
`Math.ceil(total / limit)` for that limit, so the divisor is never 0; for the
sentinel `limit = -1` the answer is successful and its `pages` is `-total`,
which is not positive. -/
theorem limit_nonzero_and_sentinel_pages (q : ListQuery) (db : Db) :
    q.limitNum ≠ 0 ∧
      (q.limit = none → q.limitNum = 100) ∧
      (parseInt q.limit = none ∨ parseInt q.limit = some 0 → q.limitNum = 100) ∧
      (∀ d, (listContacts q db).1.data = some d →
        d.pagination.limit ≠ 0 ∧
          d.pagination.pages = pages d.pagination.total d.pagination.limit) ∧
      (q.limitNum = -1 →
        ∃ d, (listContacts q db).1 = ⟨200, some d⟩ ∧
          d.pagination.pages = -d.pagination.total ∧ ¬ 0 < d.pagination.pages) := by
  have hnz : q.limitNum ≠ 0 := parseIntOr_ne_zero q.limit 100 (by decide)
  refine ⟨hnz, ?_, ?_, ?_, ?_⟩
  · intro h
    simp [ListQuery.limitNum, parseIntOr, parseInt, h]
  · intro h
    rcases h with h | h <;> simp [ListQuery.limitNum, parseIntOr, h]
  · intro d hd
    obtain ⟨h1, _, h3⟩ := listContacts_pages_field q db d hd
    exact ⟨by rw [h3]; exact hnz, h1⟩
  · intro hl
    refine ⟨_, listContacts_noLimit q db hl, ?_, ?_⟩
    · exact pages_neg_one _
    · show ¬ 0 < pages _ (-1)
      rw [pages_neg_one]
      have : (0 : Int) ≤ ((db.contacts.filter
          (fun c => whereHolds db c q.whereClauses q.searchParams)).length : Nat) :=
        Int.natCast_nonneg _
      omega

/-- Witness of C15: `GET /?limit=-1` on the seed store reports `pages = -total`. -/
theorem limit_nonzero_and_sentinel_pages_witness :
    ∃ d, (listContacts ⟨none, some "-1", none, none⟩ seedDb).1 = ⟨200, some d⟩ ∧
      d.pagination.pages = -d.pagination.total ∧ ¬ 0 < d.pagination.pages :=
  (limit_nonzero_and_sentinel_pages ⟨none, some "-1", none, none⟩ seedDb).2.2.2.2 (by decide)

end Contacts
